import Mathlib

/-!
Shallow embedding of the core of `rrtest2.py` (Road Rash CLI): the world
state, the per-tick transition `simulate_one_tick`, the terminal predicate
`is_terminal`, the evaluation function `evaluate_state_fun` and the
alpha-beta search `_alphabeta`.

Numbers: Python floats are embedded as exact rationals (ℚ); the float
literals of the source are translated to the rationals they denote in the
source text (0.14 ↦ 14/100, 0.55 ↦ 11/20, ...).  The integer constants
computed by `int(...)` are evaluated to the value Python produces
(`int(1.8/0.14) = 12`, `int(2.0/0.14) = 14`, `int(0.6/0.14) = 4`).

Randomness: every call to `random.random` / `random.choice` /
`random.uniform` inside `simulate_one_tick` is replaced by a lookup in an
explicit oracle (`Draws`), indexed by the neutral index and/or hazard index
of the site that consumes it, so one tick of the simulation is a pure
function of the state, the two actions, `dt` and the oracle.

Actions are strings, exactly as in the source (`"ACCEL"`, ..., `"MAINTAIN"`).
-/

namespace RoadRash

/-- Game constants of `rrtest2.py` lines 25-48. -/
def LANES : ℤ := 3

def TRACK_LENGTH : ℚ := 220

def TICK : ℚ := 14/100

def MAX_SPEED : ℚ := 14

def ACCEL : ℚ := 3

def BRAKE : ℚ := -5

def ATTACK_RANGE : ℚ := 7/2

def ATTACK_DAMAGE : ℚ := 28/100

def MAX_HEALTH : ℚ := 1

/-- `int(1.8 / TICK)` = 12. -/
def ATTACK_COOLDOWN_TICKS : ℤ := 12

/-- `int(2.0 / TICK)` = 14. -/
def BOOST_DURATION_TICKS : ℤ := 14

def BOOST_SPEED_MULT : ℚ := 3/2

def HAZARD_SLIP_FACTOR : ℚ := 11/20

def HAZARD_DAMAGE : ℚ := 1/20

def NEUTRAL_MAX_SPEED : ℚ := 8

/-- `int(0.6 / TICK)` = 4: minimal tick gap between two lane drifts of one
neutral (line 192). -/
def NEUTRAL_DRIFT_GAP : ℤ := 4

def ACTIONS : List String := ["ACCEL", "BRAKE", "LEFT", "RIGHT", "ATTACK", "MAINTAIN"]

/-- `clamp` (line 59): `max(a, min(b, v))`. -/
def clamp {α : Type} [LinearOrder α] (v a b : α) : α := max a (min b v)

/-- `Neutral` (lines 134-147).  The source field `tick_last_dir` keeps its
name. -/
structure Neutral where
  pos : ℚ
  lane : ℤ
  speed : ℚ
  health : ℚ
  id : ℤ
  tick_last_dir : ℤ
deriving DecidableEq

/-- `Neutral.copy` (lines 144-147): a fresh `Neutral` with the same fields. -/
def Neutral.copy (n : Neutral) : Neutral :=
  { pos := n.pos, lane := n.lane, speed := n.speed, health := n.health,
    id := n.id, tick_last_dir := n.tick_last_dir }

/-- `State` (lines 73-114).  The transient flags `_last_hit_by_player` etc.
are embedded without the leading underscore. -/
structure State where
  p_pos : ℚ
  p_speed : ℚ
  p_lane : ℤ
  p_health : ℚ
  o_pos : ℚ
  o_speed : ℚ
  o_lane : ℤ
  o_health : ℚ
  tick : ℤ
  p_last_attack_tick : ℤ
  o_last_attack_tick : ℤ
  p_boost_avail : Bool
  p_boost_ticks_left : ℤ
  hazards : List (ℚ × ℤ × String)
  neutrals : List Neutral
  last_hit_by_player : Bool
  last_hit_by_opponent : Bool
  last_hazard_hit_player : Bool
  last_hazard_hit_opponent : Bool
  attack_animation : Option (String × ℤ × ℤ × ℤ)
deriving DecidableEq

/-- `State.copy` (lines 116-131): a fresh `State`; the hazards list is
rebuilt (`list(self.hazards)`) and every neutral is deep-copied. -/
def State.copy (s : State) : State :=
  { p_pos := s.p_pos, p_speed := s.p_speed, p_lane := s.p_lane, p_health := s.p_health,
    o_pos := s.o_pos, o_speed := s.o_speed, o_lane := s.o_lane, o_health := s.o_health,
    tick := s.tick,
    p_last_attack_tick := s.p_last_attack_tick, o_last_attack_tick := s.o_last_attack_tick,
    p_boost_avail := s.p_boost_avail, p_boost_ticks_left := s.p_boost_ticks_left,
    hazards := s.hazards,
    neutrals := s.neutrals.map Neutral.copy,
    last_hit_by_player := s.last_hit_by_player,
    last_hit_by_opponent := s.last_hit_by_opponent,
    last_hazard_hit_player := s.last_hazard_hit_player,
    last_hazard_hit_opponent := s.last_hazard_hit_opponent,
    attack_animation := s.attack_animation }

/-- Oracle for the random draws one call of `simulate_one_tick` consumes.
Fields are indexed by the neutral index `i` and/or hazard index `h` of the
consuming site:
* `driftRoll i`, `driftChoice i`, `jitter i` — the neutral-update loop
  (lines 190-199): `random.random()`, `random.choice([-1,0,1])`,
  `random.uniform(-0.6, 0.6)`;
* `oHazRoll h`, `oHazSlip h`, `oHazDmg h` — the opponent branch of the
  hazard loop (lines 271-274);
* `nHazRoll h i`, `nHazSlip h i`, `nHazDmg h i` — the neutral branch of the
  hazard loop (lines 276-280). -/
structure Draws where
  driftRoll : ℕ → ℚ
  driftChoice : ℕ → ℤ
  jitter : ℕ → ℚ
  oHazRoll : ℕ → ℚ
  oHazSlip : ℕ → ℚ
  oHazDmg : ℕ → ℚ
  nHazRoll : ℕ → ℕ → ℚ
  nHazSlip : ℕ → ℕ → ℚ
  nHazDmg : ℕ → ℕ → ℚ

/-- `apply_speed` (lines 174-184), the closure inside `simulate_one_tick`;
its captured `s.p_boost_ticks_left` and `dt` are explicit parameters. -/
def apply_speed (p_boost_ticks_left : ℤ) (dt : ℚ) (speed : ℚ) (act : String)
    (is_player : Bool) : ℚ :=
  let speed := if act = "ACCEL" then speed + ACCEL * dt
    else if act = "BRAKE" then speed + BRAKE * dt
    else speed
  if is_player = true ∧ 0 < p_boost_ticks_left then
    clamp speed 0 (MAX_SPEED * BOOST_SPEED_MULT)
  else
    clamp speed 0 MAX_SPEED

/-- Body of the neutral-update loop (lines 190-199) for the neutral of
index `i`. -/
def updateNeutral (d : Draws) (tick : ℤ) (dt : ℚ) (i : ℕ) (n : Neutral) : Neutral :=
  let n :=
    if NEUTRAL_DRIFT_GAP < tick - n.tick_last_dir ∧ d.driftRoll i < 1/4 then
      { n with lane := clamp (n.lane + d.driftChoice i) 0 (LANES - 1),
               tick_last_dir := tick }
    else n
  let sp := clamp (n.speed + d.jitter i * dt) (1/2) NEUTRAL_MAX_SPEED
  { n with speed := sp, pos := n.pos + sp * dt }

/-- Indexed map, used to run a per-element update that consumes
index-addressed draws (the source iterates the list in order). -/
def mapIdxFrom {α : Type} (f : ℕ → α → α) : ℕ → List α → List α
  | _, [] => []
  | i, x :: xs => f i x :: mapIdxFrom f (i + 1) xs

/-- Phase 1 (lines 186-187): speeds from actions. -/
def speedPhase (pa oa : String) (dt : ℚ) (s : State) : State :=
  { s with p_speed := apply_speed s.p_boost_ticks_left dt s.p_speed pa true,
           o_speed := apply_speed s.p_boost_ticks_left dt s.o_speed oa false }

/-- Phase 2 (lines 190-199): neutral drift, jitter and movement. -/
def neutralPhase (d : Draws) (dt : ℚ) (s : State) : State :=
  { s with neutrals := mapIdxFrom (updateNeutral d s.tick dt) 0 s.neutrals }

/-- Lane step for one agent (lines 202-205): `pa == "LEFT"` and
`pa == "RIGHT"` are two separate `if`s in the source, but at most one can
hold. -/
def laneStep (act : String) (lane : ℤ) : ℤ :=
  if act = "LEFT" then clamp (lane - 1) 0 (LANES - 1)
  else if act = "RIGHT" then clamp (lane + 1) 0 (LANES - 1)
  else lane

/-- Phase 3 (lines 202-205): lane changes. -/
def lanePhase (pa oa : String) (s : State) : State :=
  { s with p_lane := laneStep pa s.p_lane, o_lane := laneStep oa s.o_lane }

/-- Phase 4 (lines 208-209): advance positions. -/
def posPhase (dt : ℚ) (s : State) : State :=
  { s with p_pos := s.p_pos + s.p_speed * dt, o_pos := s.o_pos + s.o_speed * dt }

/-- Phase 5 (lines 212-215): boost countdown and re-clamp on expiry. -/
def boostPhase (s : State) : State :=
  if 0 < s.p_boost_ticks_left then
    let s2 : State := { s with p_boost_ticks_left := s.p_boost_ticks_left - 1 }
    if s2.p_boost_ticks_left = 0 then
      { s2 with p_speed := clamp s2.p_speed 0 MAX_SPEED }
    else s2
  else s

/-- Phase 6 (lines 218-222): reset the transient flags. -/
def flagsPhase (s : State) : State :=
  { s with last_hit_by_player := false, last_hit_by_opponent := false,
           last_hazard_hit_player := false, last_hazard_hit_opponent := false,
           attack_animation := none }

/-- The state of `simulate_one_tick` just before the attack resolution
(lines 171-222): the copy of the input followed by phases 1-6. -/
def preAttack (d : Draws) (st : State) (pa oa : String) (dt : ℚ) : State :=
  flagsPhase (boostPhase (posPhase dt (lanePhase pa oa
    (neutralPhase d dt (speedPhase pa oa dt (State.copy st))))))

/-- The neutral-scan of an attack (lines 235-241 / 252-258): damage the
first alive neutral in the attacker's lane within range, in list order;
return the updated list and whether one was hit.  (When a neutral is hit,
its lane equals the attacker's lane, which the caller uses for the
animation tuple.) -/
def attackNeutrals (lane : ℤ) (pos : ℚ) : List Neutral → List Neutral × Bool
  | [] => ([], false)
  | n :: rest =>
    if 0 < n.health ∧ n.lane = lane ∧ |n.pos - pos| ≤ ATTACK_RANGE then
      ({ n with health := clamp (n.health - ATTACK_DAMAGE) 0 MAX_HEALTH } :: rest, true)
    else
      let r := attackNeutrals lane pos rest
      (n :: r.1, r.2)

/-- The player's attack resolution (lines 225-241). -/
def playerAttack (pa : String) (s : State) : State :=
  if pa = "ATTACK" ∧ ATTACK_COOLDOWN_TICKS ≤ s.tick - s.p_last_attack_tick then
    let s := { s with p_last_attack_tick := s.tick }
    if s.p_lane = s.o_lane ∧ |s.p_pos - s.o_pos| ≤ ATTACK_RANGE then
      { s with o_health := clamp (s.o_health - ATTACK_DAMAGE) 0 MAX_HEALTH,
               last_hit_by_player := true,
               attack_animation := some ("P", s.p_lane, s.o_lane, 4) }
    else
      let r := attackNeutrals s.p_lane s.p_pos s.neutrals
      if r.2 = true then
        { s with neutrals := r.1, last_hit_by_player := true,
                 attack_animation := some ("P", s.p_lane, s.p_lane, 4) }
      else { s with neutrals := r.1 }
  else s

/-- The opponent's attack resolution (lines 243-258). -/
def opponentAttack (oa : String) (s : State) : State :=
  if oa = "ATTACK" ∧ ATTACK_COOLDOWN_TICKS ≤ s.tick - s.o_last_attack_tick then
    let s := { s with o_last_attack_tick := s.tick }
    if s.o_lane = s.p_lane ∧ |s.o_pos - s.p_pos| ≤ ATTACK_RANGE then
      { s with p_health := clamp (s.p_health - ATTACK_DAMAGE) 0 MAX_HEALTH,
               last_hit_by_opponent := true,
               attack_animation := some ("O", s.o_lane, s.p_lane, 4) }
    else
      let r := attackNeutrals s.o_lane s.o_pos s.neutrals
      if r.2 = true then
        { s with neutrals := r.1, last_hit_by_opponent := true,
                 attack_animation := some ("O", s.o_lane, s.o_lane, 4) }
      else { s with neutrals := r.1 }
  else s

/-- Hazard effect on the neutral of index `i` for the hazard of index `h`
(lines 276-280). -/
def hazardNeutral (d : Draws) (h : ℕ) (dt : ℚ) (hz_pos : ℚ) (hz_lane : ℤ)
    (i : ℕ) (n : Neutral) : Neutral :=
  if hz_lane = n.lane ∧ |n.pos - hz_pos| < n.speed * dt + 3/5 then
    if d.nHazRoll h i < 3/5 then
      { n with speed := n.speed * (HAZARD_SLIP_FACTOR + (1/10) * d.nHazSlip h i),
               health := clamp (n.health - HAZARD_DAMAGE * (1/2 + d.nHazDmg h i)) 0 MAX_HEALTH }
    else n
  else n

/-- Player branch of one hazard-loop iteration (lines 265-268). -/
def hazardPlayer (dt : ℚ) (hz_pos : ℚ) (hz_lane : ℤ) (s : State) : State :=
  if hz_lane = s.p_lane ∧ |s.p_pos - hz_pos| < s.p_speed * dt + 3/5 then
    { s with p_speed := s.p_speed * HAZARD_SLIP_FACTOR,
             p_health := clamp (s.p_health - HAZARD_DAMAGE) 0 MAX_HEALTH,
             last_hazard_hit_player := true }
  else s

/-- Opponent branch of one hazard-loop iteration (lines 270-274). -/
def hazardOpp (d : Draws) (h : ℕ) (dt : ℚ) (hz_pos : ℚ) (hz_lane : ℤ) (s : State) : State :=
  if hz_lane = s.o_lane ∧ |s.o_pos - hz_pos| < s.o_speed * dt + 3/5 then
    if d.oHazRoll h < 7/10 then
      { s with o_speed := s.o_speed * (HAZARD_SLIP_FACTOR + (2/25) * d.oHazSlip h),
               o_health := clamp (s.o_health - HAZARD_DAMAGE * (1/2 + d.oHazDmg h)) 0 MAX_HEALTH,
               last_hazard_hit_opponent := true }
    else s
  else s

/-- One iteration of the hazard loop (lines 262-281) for the hazard of
index `h`: player slip (deterministic), opponent slip (randomized), then
the neutral scan. -/
def hazardOne (d : Draws) (dt : ℚ) (h : ℕ) (s : State) (hz : ℚ × ℤ × String) : State :=
  let s := hazardPlayer dt hz.1 hz.2.1 s
  let s := hazardOpp d h dt hz.1 hz.2.1 s
  { s with neutrals := mapIdxFrom (hazardNeutral d h dt hz.1 hz.2.1) 0 s.neutrals }

/-- Fold of `hazardOne` over the hazards list, threading the hazard index
(the source rebuilds `new_hz` with the same entries, so `s.hazards` is
unchanged). -/
def hazardGo (d : Draws) (dt : ℚ) : ℕ → State → List (ℚ × ℤ × String) → State
  | _, s, [] => s
  | h, s, hz :: rest => hazardGo d dt (h + 1) (hazardOne d dt h s hz) rest

/-- Phase 8 (lines 260-282): the hazard loop. -/
def hazardPhase (d : Draws) (dt : ℚ) (s : State) : State :=
  hazardGo d dt 0 s s.hazards

/-- The player bump of one bump-loop iteration (lines 288-291). -/
def bumpP (n : Neutral) (s : State) : State :=
  if n.lane = s.p_lane ∧ |n.pos - s.p_pos| < 4/5 then
    { s with p_health := clamp (s.p_health - 1/50) 0 MAX_HEALTH,
             p_speed := s.p_speed * (9/10) }
  else s

/-- The opponent bump of one bump-loop iteration (lines 293-295). -/
def bumpO (n : Neutral) (s : State) : State :=
  if n.lane = s.o_lane ∧ |n.pos - s.o_pos| < 4/5 then
    { s with o_health := clamp (s.o_health - 1/50) 0 MAX_HEALTH,
             o_speed := s.o_speed * (9/10) }
  else s

/-- One iteration of the bump loop (lines 285-295): a neutral with
positive health bumps each combatant sharing its lane within 0.8
(`if n.health <= 0: continue`). -/
def bumpOne (s : State) (n : Neutral) : State :=
  if n.health ≤ 0 then s
  else bumpO n (bumpP n s)

/-- Phase 9 (lines 284-295): the bump loop. -/
def bumpPhase (s : State) : State :=
  s.neutrals.foldl bumpOne s

/-- `simulate_one_tick` (lines 170-298): copy, phases 1-6, the two attack
resolutions, hazards, bumps, tick increment. -/
def simulate_one_tick (d : Draws) (st : State) (pa oa : String) (dt : ℚ) : State :=
  let s := preAttack d st pa oa dt
  let s := playerAttack pa s
  let s := opponentAttack oa s
  let s := hazardPhase d dt s
  let s := bumpPhase s
  { s with tick := s.tick + 1 }

/-- `is_terminal` (lines 301-308). -/
def is_terminal (s : State) : Bool :=
  if s.p_health ≤ 0 ∨ s.o_health ≤ 0 then true
  else if TRACK_LENGTH ≤ s.p_pos ∨ TRACK_LENGTH ≤ s.o_pos then true
  else if 7000 < s.tick then true
  else false

/-- The `collision` feature of `evaluate_state_fun` (line 316). -/
def collisionFeature (s : State) : ℚ :=
  if s.p_lane = s.o_lane ∧ |s.p_pos - s.o_pos| < 3 then 1 else 0

/-- The `attack_op` feature of `evaluate_state_fun` (line 317):
`0 < (s.p_pos - s.o_pos) <= ATTACK_RANGE` in the source, i.e. the PLAYER
ahead of the opponent. -/
def attack_op (s : State) : ℚ :=
  if s.p_lane = s.o_lane ∧ 0 < s.p_pos - s.o_pos ∧ s.p_pos - s.o_pos ≤ ATTACK_RANGE then 1
  else 0


/-- `evaluate_state_fun` (lines 311-330). -/
def evaluate_state_fun (s : State) (mode : String) : ℚ :=
  let progress := s.p_pos / TRACK_LENGTH
  let lead := (s.p_pos - s.o_pos) / TRACK_LENGTH
  let speed_norm := s.p_speed / (MAX_SPEED * BOOST_SPEED_MULT)
  let health := s.p_health
  if mode = "aggressive" then
    55 * progress + 18 * speed_norm + 35 * lead + 60 * health
      + (-50) * collisionFeature s + 70 * attack_op s
  else
    60 * progress + 18 * speed_norm + 40 * lead + 80 * health
      + (-65) * collisionFeature s + 45 * attack_op s

/-- The `1e9` sentinel of `_alphabeta` (lines 343-344, 372, 381). -/
def BIG : ℚ := 1000000000

/-- The maximizing loop of `_alphabeta` (lines 372-379): fold over the
remaining actions carrying `v` and `alpha`, with the `alpha >= beta`
break. -/
def abMaxGo (rec : State → ℚ → ℚ → ℚ) (ch : String → State) :
    List String → ℚ → ℚ → ℚ → ℚ
  | [], v, _, _ => v
  | a :: rest, v, alpha, beta =>
    let v2 := max v (rec (ch a) alpha beta)
    let alpha2 := max alpha v2
    if beta ≤ alpha2 then v2 else abMaxGo rec ch rest v2 alpha2 beta

/-- The minimizing loop of `_alphabeta` (lines 381-388). -/
def abMinGo (rec : State → ℚ → ℚ → ℚ) (ch : String → State) :
    List String → ℚ → ℚ → ℚ → ℚ
  | [], v, _, _ => v
  | a :: rest, v, alpha, beta =>
    let v2 := min v (rec (ch a) alpha beta)
    let beta2 := min beta v2
    if beta2 ≤ alpha then v2 else abMinGo rec ch rest v2 alpha beta2

/-- `_alphabeta` (lines 368-388), parameterised over the per-node
transition `child maximizing s a`, which stands for
`simulate_one_tick(s, a, "MAINTAIN")` at maximizing plies and
`simulate_one_tick(s, "MAINTAIN", a)` at minimizing plies, with the random
draws consumed at that node (the claim fixes the sequence of transition
results at corresponding tree nodes). -/
def alphabeta (child : Bool → State → String → State) (mode : String) :
    ℕ → State → ℚ → ℚ → Bool → ℚ
  | 0, s, _, _, _ => evaluate_state_fun s mode
  | d + 1, s, alpha, beta, maxi =>
    if is_terminal s = true then evaluate_state_fun s mode
    else if maxi = true then
      abMaxGo (fun s2 a2 b2 => alphabeta child mode d s2 a2 b2 false) (child true s)
        ACTIONS (-BIG) alpha beta
    else
      abMinGo (fun s2 a2 b2 => alphabeta child mode d s2 a2 b2 true) (child false s)
        ACTIONS BIG alpha beta

/-- Unpruned full minimax over the same tree, same leaf evaluation and the
same `-1e9` / `1e9` loop seeds, i.e. `_alphabeta` with the break removed. -/
def minimax (child : Bool → State → String → State) (mode : String) :
    ℕ → State → Bool → ℚ
  | 0, s, _ => evaluate_state_fun s mode
  | d + 1, s, maxi =>
    if is_terminal s = true then evaluate_state_fun s mode
    else if maxi = true then
      (ACTIONS.map (fun a => minimax child mode d (child true s a) false)).foldl max (-BIG)
    else
      (ACTIONS.map (fun a => minimax child mode d (child false s a) true)).foldl min BIG

/-- The leaf states of the unpruned depth-`d` tree explored from `s`. -/
def searchLeaves (child : Bool → State → String → State) :
    ℕ → State → Bool → List State
  | 0, s, _ => [s]
  | d + 1, s, maxi =>
    if is_terminal s = true then [s]
    else (ACTIONS.map (fun a => searchLeaves child d (child maxi s a) (!maxi))).flatten

/-- Maximizing loop of the instrumented `_alphabeta` that also counts leaf
evaluations. -/
def abCntMaxGo (rec : State → ℚ → ℚ → ℚ × ℕ) (ch : String → State) :
    List String → ℚ → ℚ → ℚ → ℕ → ℚ × ℕ
  | [], v, _, _, c => (v, c)
  | a :: rest, v, alpha, beta, c =>
    let r := rec (ch a) alpha beta
    let v2 := max v r.1
    let alpha2 := max alpha v2
    if beta ≤ alpha2 then (v2, c + r.2) else abCntMaxGo rec ch rest v2 alpha2 beta (c + r.2)

/-- Minimizing loop of the instrumented `_alphabeta`. -/
def abCntMinGo (rec : State → ℚ → ℚ → ℚ × ℕ) (ch : String → State) :
    List String → ℚ → ℚ → ℚ → ℕ → ℚ × ℕ
  | [], v, _, _, c => (v, c)
  | a :: rest, v, alpha, beta, c =>
    let r := rec (ch a) alpha beta
    let v2 := min v r.1
    let beta2 := min beta v2
    if beta2 ≤ alpha then (v2, c + r.2) else abCntMinGo rec ch rest v2 alpha beta2 (c + r.2)

/-- `_alphabeta` instrumented with the number of leaf evaluations it
performs (second component); the first component is the returned value. -/
def alphabetaCount (child : Bool → State → String → State) (mode : String) :
    ℕ → State → ℚ → ℚ → Bool → ℚ × ℕ
  | 0, s, _, _, _ => (evaluate_state_fun s mode, 1)
  | d + 1, s, alpha, beta, maxi =>
    if is_terminal s = true then (evaluate_state_fun s mode, 1)
    else if maxi = true then
      abCntMaxGo (fun s2 a2 b2 => alphabetaCount child mode d s2 a2 b2 false) (child true s)
        ACTIONS (-BIG) alpha beta 0
    else
      abCntMinGo (fun s2 a2 b2 => alphabetaCount child mode d s2 a2 b2 true) (child false s)
        ACTIONS BIG alpha beta 0

/-! Concrete instances used by the witnesses: a constant-zero draw oracle
and small concrete states. -/

/-- A draw oracle returning 0 everywhere (all rolls land below every
threshold, no jitter, no drift). -/
def d0 : Draws :=
  { driftRoll := fun _ => 0, driftChoice := fun _ => 0, jitter := fun _ => 0,
    oHazRoll := fun _ => 0, oHazSlip := fun _ => 0, oHazDmg := fun _ => 0,
    nHazRoll := fun _ _ => 0, nHazSlip := fun _ _ => 0, nHazDmg := fun _ _ => 0 }

/-- The initial state of a session (lines 562-569), with no hazards and no
neutrals. -/
def s0 : State :=
  { p_pos := 0, p_speed := 3, p_lane := 1, p_health := 1,
    o_pos := 6, o_speed := 7/2, o_lane := 1, o_health := 4/5,
    tick := 0, p_last_attack_tick := -999, o_last_attack_tick := -999,
    p_boost_avail := true, p_boost_ticks_left := 0,
    hazards := [], neutrals := [],
    last_hit_by_player := false, last_hit_by_opponent := false,
    last_hazard_hit_player := false, last_hazard_hit_opponent := false,
    attack_animation := none }

/-- `s0` with the opponent 2 units ahead of the player in the same lane. -/
def cex6 : State := { s0 with o_pos := 2 }

/-- `s0` with both last-attack ticks at the current tick (cooldowns not
elapsed). -/
def s4 : State := { s0 with p_last_attack_tick := 0, o_last_attack_tick := 0 }

/-- `s0` with the opponent in another lane (an attack hits nothing). -/
def s5 : State := { s0 with o_lane := 2 }

/-- An alive neutral. -/
def n1 : Neutral :=
  { pos := 8, lane := 0, speed := 2, health := 7/10, id := 1, tick_last_dir := 0 }

/-- A defeated neutral (health 0). -/
def nDead : Neutral :=
  { pos := 40, lane := 2, speed := 3, health := 0, id := 2, tick_last_dir := 0 }

/-- `s0` with one alive and one dead neutral and one hazard. -/
def s10 : State := { s0 with neutrals := [n1, nDead], hazards := [(30, 1, "oil")] }

/-- A constant child function for the search witnesses: every action loops
back to the same state. -/
def child0 : Bool → State → String → State := fun _ s _ => s

/-- The range invariant on the two combatants' health and speed: healths
in `[0, MAX_HEALTH]`, player speed in `[0, c]` (with `c` the applicable
speed ceiling), opponent speed in `[0, MAX_SPEED]`. -/
def CombatantInv (c : ℚ) (s : State) : Prop :=
  0 ≤ s.p_health ∧ s.p_health ≤ MAX_HEALTH ∧ 0 ≤ s.o_health ∧ s.o_health ≤ MAX_HEALTH ∧
  0 ≤ s.p_speed ∧ s.p_speed ≤ c ∧ 0 ≤ s.o_speed ∧ s.o_speed ≤ MAX_SPEED

/-! Frame lemmas: which fields each phase of `simulate_one_tick` leaves
untouched. -/

lemma clamp_lb {α : Type} [LinearOrder α] (v a b : α) : a ≤ clamp v a b :=
  le_max_left _ _

lemma clamp_ub {α : Type} [LinearOrder α] (v a b : α) (hab : a ≤ b) : clamp v a b ≤ b :=
  max_le hab (min_le_left _ _)

lemma preAttack_tick (d : Draws) (st : State) (pa oa : String) (dt : ℚ) :
    (preAttack d st pa oa dt).tick = st.tick := by
  simp only [preAttack, flagsPhase, boostPhase, posPhase, lanePhase, neutralPhase,
    speedPhase, State.copy]
  split
  · split <;> rfl
  · rfl

lemma preAttack_p_last (d : Draws) (st : State) (pa oa : String) (dt : ℚ) :
    (preAttack d st pa oa dt).p_last_attack_tick = st.p_last_attack_tick := by
  simp only [preAttack, flagsPhase, boostPhase, posPhase, lanePhase, neutralPhase,
    speedPhase, State.copy]
  split
  · split <;> rfl
  · rfl

lemma preAttack_o_last (d : Draws) (st : State) (pa oa : String) (dt : ℚ) :
    (preAttack d st pa oa dt).o_last_attack_tick = st.o_last_attack_tick := by
  simp only [preAttack, flagsPhase, boostPhase, posPhase, lanePhase, neutralPhase,
    speedPhase, State.copy]
  split
  · split <;> rfl
  · rfl

lemma preAttack_p_health (d : Draws) (st : State) (pa oa : String) (dt : ℚ) :
    (preAttack d st pa oa dt).p_health = st.p_health := by
  simp only [preAttack, flagsPhase, boostPhase, posPhase, lanePhase, neutralPhase,
    speedPhase, State.copy]
  split
  · split <;> rfl
  · rfl

lemma preAttack_o_health (d : Draws) (st : State) (pa oa : String) (dt : ℚ) :
    (preAttack d st pa oa dt).o_health = st.o_health := by
  simp only [preAttack, flagsPhase, boostPhase, posPhase, lanePhase, neutralPhase,
    speedPhase, State.copy]
  split
  · split <;> rfl
  · rfl

lemma preAttack_hazards (d : Draws) (st : State) (pa oa : String) (dt : ℚ) :
    (preAttack d st pa oa dt).hazards = st.hazards := by
  simp only [preAttack, flagsPhase, boostPhase, posPhase, lanePhase, neutralPhase,
    speedPhase, State.copy]
  split
  · split <;> rfl
  · rfl

lemma preAttack_neutrals (d : Draws) (st : State) (pa oa : String) (dt : ℚ) :
    (preAttack d st pa oa dt).neutrals
      = mapIdxFrom (updateNeutral d st.tick dt) 0 (st.neutrals.map Neutral.copy) := by
  simp only [preAttack, flagsPhase, boostPhase, posPhase, lanePhase, neutralPhase,
    speedPhase, State.copy]
  split
  · split <;> rfl
  · rfl

lemma preAttack_boost_ticks (d : Draws) (st : State) (pa oa : String) (dt : ℚ) :
    (preAttack d st pa oa dt).p_boost_ticks_left
      = if 0 < st.p_boost_ticks_left then st.p_boost_ticks_left - 1
        else st.p_boost_ticks_left := by
  simp only [preAttack, flagsPhase, boostPhase, posPhase, lanePhase, neutralPhase,
    speedPhase, State.copy]
  split
  · split <;> rfl
  · rfl

lemma playerAttack_tick (pa : String) (s : State) : (playerAttack pa s).tick = s.tick := by
  simp only [playerAttack]
  split
  · split
    · rfl
    · split <;> rfl
  · rfl

lemma playerAttack_o_last (pa : String) (s : State) :
    (playerAttack pa s).o_last_attack_tick = s.o_last_attack_tick := by
  simp only [playerAttack]
  split
  · split
    · rfl
    · split <;> rfl
  · rfl

lemma playerAttack_p_health (pa : String) (s : State) :
    (playerAttack pa s).p_health = s.p_health := by
  simp only [playerAttack]
  split
  · split
    · rfl
    · split <;> rfl
  · rfl

lemma playerAttack_p_speed (pa : String) (s : State) :
    (playerAttack pa s).p_speed = s.p_speed := by
  simp only [playerAttack]
  split
  · split
    · rfl
    · split <;> rfl
  · rfl

lemma playerAttack_o_speed (pa : String) (s : State) :
    (playerAttack pa s).o_speed = s.o_speed := by
  simp only [playerAttack]
  split
  · split
    · rfl
    · split <;> rfl
  · rfl

lemma playerAttack_boost_ticks (pa : String) (s : State) :
    (playerAttack pa s).p_boost_ticks_left = s.p_boost_ticks_left := by
  simp only [playerAttack]
  split
  · split
    · rfl
    · split <;> rfl
  · rfl

lemma playerAttack_hazards (pa : String) (s : State) :
    (playerAttack pa s).hazards = s.hazards := by
  simp only [playerAttack]
  split
  · split
    · rfl
    · split <;> rfl
  · rfl

lemma opponentAttack_tick (oa : String) (s : State) : (opponentAttack oa s).tick = s.tick := by
  simp only [opponentAttack]
  split
  · split
    · rfl
    · split <;> rfl
  · rfl

lemma opponentAttack_p_last (oa : String) (s : State) :
    (opponentAttack oa s).p_last_attack_tick = s.p_last_attack_tick := by
  simp only [opponentAttack]
  split
  · split
    · rfl
    · split <;> rfl
  · rfl

lemma opponentAttack_o_health (oa : String) (s : State) :
    (opponentAttack oa s).o_health = s.o_health := by
  simp only [opponentAttack]
  split
  · split
    · rfl
    · split <;> rfl
  · rfl

lemma opponentAttack_p_speed (oa : String) (s : State) :
    (opponentAttack oa s).p_speed = s.p_speed := by
  simp only [opponentAttack]
  split
  · split
    · rfl
    · split <;> rfl
  · rfl

lemma opponentAttack_o_speed (oa : String) (s : State) :
    (opponentAttack oa s).o_speed = s.o_speed := by
  simp only [opponentAttack]
  split
  · split
    · rfl
    · split <;> rfl
  · rfl

lemma opponentAttack_boost_ticks (oa : String) (s : State) :
    (opponentAttack oa s).p_boost_ticks_left = s.p_boost_ticks_left := by
  simp only [opponentAttack]
  split
  · split
    · rfl
    · split <;> rfl
  · rfl

lemma opponentAttack_hazards (oa : String) (s : State) :
    (opponentAttack oa s).hazards = s.hazards := by
  simp only [opponentAttack]
  split
  · split
    · rfl
    · split <;> rfl
  · rfl

lemma hazardPlayer_tick (dt hp : ℚ) (hl : ℤ) (s : State) :
    (hazardPlayer dt hp hl s).tick = s.tick := by
  simp only [hazardPlayer]; split <;> rfl

lemma hazardOpp_tick (d : Draws) (h : ℕ) (dt hp : ℚ) (hl : ℤ) (s : State) :
    (hazardOpp d h dt hp hl s).tick = s.tick := by
  simp only [hazardOpp]; split
  · split <;> rfl
  · rfl

lemma hazardOne_tick (d : Draws) (dt : ℚ) (h : ℕ) (s : State) (hz : ℚ × ℤ × String) :
    (hazardOne d dt h s hz).tick = s.tick := by
  simp only [hazardOne]
  rw [show ({ hazardOpp d h dt hz.1 hz.2.1 (hazardPlayer dt hz.1 hz.2.1 s) with
      neutrals := mapIdxFrom (hazardNeutral d h dt hz.1 hz.2.1) 0
        (hazardOpp d h dt hz.1 hz.2.1 (hazardPlayer dt hz.1 hz.2.1 s)).neutrals } : State).tick
    = (hazardOpp d h dt hz.1 hz.2.1 (hazardPlayer dt hz.1 hz.2.1 s)).tick from rfl]
  rw [hazardOpp_tick, hazardPlayer_tick]

lemma hazardGo_tick (d : Draws) (dt : ℚ) :
    ∀ (L : List (ℚ × ℤ × String)) (h : ℕ) (s : State), (hazardGo d dt h s L).tick = s.tick := by
  intro L
  induction L with
  | nil => intro h s; rfl
  | cons hz rest ih =>
    intro h s
    simp only [hazardGo]
    rw [ih, hazardOne_tick]

lemma bumpP_tick (n : Neutral) (s : State) : (bumpP n s).tick = s.tick := by
  simp only [bumpP]; split <;> rfl

lemma bumpO_tick (n : Neutral) (s : State) : (bumpO n s).tick = s.tick := by
  simp only [bumpO]; split <;> rfl

lemma bumpOne_tick (s : State) (n : Neutral) : (bumpOne s n).tick = s.tick := by
  simp only [bumpOne]
  split
  · rfl
  · rw [bumpO_tick, bumpP_tick]

lemma foldl_bumpOne_tick :
    ∀ (ns : List Neutral) (acc : State), (List.foldl bumpOne acc ns).tick = acc.tick := by
  intro ns
  induction ns with
  | nil => intro acc; rfl
  | cons n rest ih =>
    intro acc
    simp only [List.foldl_cons]
    rw [ih, bumpOne_tick]

lemma bumpPhase_tick (s : State) : (bumpPhase s).tick = s.tick := by
  simp only [bumpPhase]; exact foldl_bumpOne_tick _ _

lemma hazardPhase_tick (d : Draws) (dt : ℚ) (s : State) :
    (hazardPhase d dt s).tick = s.tick := by
  simp only [hazardPhase]; exact hazardGo_tick d dt _ _ _

lemma neutral_copy_eq (n : Neutral) : Neutral.copy n = n := by
  cases n; rfl

lemma map_copy_eq (ns : List Neutral) : ns.map Neutral.copy = ns := by
  have h : Neutral.copy = id := funext fun n => neutral_copy_eq n
  simp [h]

lemma state_copy_eq (s : State) : State.copy s = s := by
  cases s
  simp [State.copy, map_copy_eq]

lemma hazardPlayer_p_last (dt hp : ℚ) (hl : ℤ) (s : State) :
    (hazardPlayer dt hp hl s).p_last_attack_tick = s.p_last_attack_tick := by
  simp only [hazardPlayer]; split <;> rfl

lemma hazardOpp_p_last (d : Draws) (h : ℕ) (dt hp : ℚ) (hl : ℤ) (s : State) :
    (hazardOpp d h dt hp hl s).p_last_attack_tick = s.p_last_attack_tick := by
  simp only [hazardOpp]; split
  · split <;> rfl
  · rfl

lemma hazardOne_p_last (d : Draws) (dt : ℚ) (h : ℕ) (s : State) (hz : ℚ × ℤ × String) :
    (hazardOne d dt h s hz).p_last_attack_tick = s.p_last_attack_tick := by
  simp only [hazardOne]
  rw [show ({ hazardOpp d h dt hz.1 hz.2.1 (hazardPlayer dt hz.1 hz.2.1 s) with
      neutrals := mapIdxFrom (hazardNeutral d h dt hz.1 hz.2.1) 0
        (hazardOpp d h dt hz.1 hz.2.1 (hazardPlayer dt hz.1 hz.2.1 s)).neutrals } : State).p_last_attack_tick
    = (hazardOpp d h dt hz.1 hz.2.1 (hazardPlayer dt hz.1 hz.2.1 s)).p_last_attack_tick from rfl]
  rw [hazardOpp_p_last, hazardPlayer_p_last]

lemma hazardGo_p_last (d : Draws) (dt : ℚ) :
    ∀ (L : List (ℚ × ℤ × String)) (h : ℕ) (s : State),
      (hazardGo d dt h s L).p_last_attack_tick = s.p_last_attack_tick := by
  intro L
  induction L with
  | nil => intro h s; rfl
  | cons hz rest ih => intro h s; simp only [hazardGo]; rw [ih, hazardOne_p_last]

lemma hazardPhase_p_last (d : Draws) (dt : ℚ) (s : State) :
    (hazardPhase d dt s).p_last_attack_tick = s.p_last_attack_tick := by
  simp only [hazardPhase]; exact hazardGo_p_last d dt _ _ _

lemma bumpP_p_last (n : Neutral) (s : State) :
    (bumpP n s).p_last_attack_tick = s.p_last_attack_tick := by
  simp only [bumpP]; split <;> rfl

lemma bumpO_p_last (n : Neutral) (s : State) :
    (bumpO n s).p_last_attack_tick = s.p_last_attack_tick := by
  simp only [bumpO]; split <;> rfl

lemma bumpOne_p_last (s : State) (n : Neutral) :
    (bumpOne s n).p_last_attack_tick = s.p_last_attack_tick := by
  simp only [bumpOne]
  split
  · rfl
  · rw [bumpO_p_last, bumpP_p_last]

lemma foldl_bumpOne_p_last :
    ∀ (ns : List Neutral) (acc : State),
      (List.foldl bumpOne acc ns).p_last_attack_tick = acc.p_last_attack_tick := by
  intro ns
  induction ns with
  | nil => intro acc; rfl
  | cons n rest ih => intro acc; simp only [List.foldl_cons]; rw [ih, bumpOne_p_last]

lemma bumpPhase_p_last (s : State) :
    (bumpPhase s).p_last_attack_tick = s.p_last_attack_tick := by
  simp only [bumpPhase]; exact foldl_bumpOne_p_last _ _

/-! Equalities between actions that `simulate_one_tick` does not
distinguish, and the attack-resolution case lemmas. -/

lemma preAttack_pa_attack_maintain (d : Draws) (st : State) (oa : String) (dt : ℚ) :
    preAttack d st "ATTACK" oa dt = preAttack d st "MAINTAIN" oa dt := by
  simp [preAttack, speedPhase, apply_speed, lanePhase, laneStep]

lemma preAttack_oa_attack_maintain (d : Draws) (st : State) (pa : String) (dt : ℚ) :
    preAttack d st pa "ATTACK" dt = preAttack d st pa "MAINTAIN" dt := by
  simp [preAttack, speedPhase, apply_speed, lanePhase, laneStep]

lemma playerAttack_skip (pa : String) (s : State)
    (h : ¬(pa = "ATTACK" ∧ ATTACK_COOLDOWN_TICKS ≤ s.tick - s.p_last_attack_tick)) :
    playerAttack pa s = s := by
  unfold playerAttack; rw [if_neg h]

lemma playerAttack_maintain (s : State) : playerAttack "MAINTAIN" s = s := by
  unfold playerAttack
  rw [if_neg]
  simp

lemma opponentAttack_skip (oa : String) (s : State)
    (h : ¬(oa = "ATTACK" ∧ ATTACK_COOLDOWN_TICKS ≤ s.tick - s.o_last_attack_tick)) :
    opponentAttack oa s = s := by
  unfold opponentAttack; rw [if_neg h]

lemma opponentAttack_maintain (s : State) : opponentAttack "MAINTAIN" s = s := by
  unfold opponentAttack
  rw [if_neg]
  simp

lemma attackNeutrals_none (lane : ℤ) (pos : ℚ) :
    ∀ ns : List Neutral,
      (∀ n ∈ ns, ¬(0 < n.health ∧ n.lane = lane ∧ |n.pos - pos| ≤ ATTACK_RANGE)) →
      attackNeutrals lane pos ns = (ns, false) := by
  intro ns
  induction ns with
  | nil => intro _; rfl
  | cons n rest ih =>
    intro h
    simp only [attackNeutrals]
    rw [if_neg (h n (by simp))]
    rw [ih (fun m hm => h m (by simp [hm]))]

lemma playerAttack_miss (s : State)
    (hcool : ATTACK_COOLDOWN_TICKS ≤ s.tick - s.p_last_attack_tick)
    (hopp : ¬(s.p_lane = s.o_lane ∧ |s.p_pos - s.o_pos| ≤ ATTACK_RANGE))
    (hneut : ∀ n ∈ s.neutrals,
      ¬(0 < n.health ∧ n.lane = s.p_lane ∧ |n.pos - s.p_pos| ≤ ATTACK_RANGE)) :
    playerAttack "ATTACK" s = { s with p_last_attack_tick := s.tick } := by
  unfold playerAttack
  rw [if_pos ⟨rfl, hcool⟩]
  dsimp only
  rw [if_neg hopp, attackNeutrals_none _ _ _ hneut]
  rfl

lemma opponentAttack_miss (s : State)
    (hcool : ATTACK_COOLDOWN_TICKS ≤ s.tick - s.o_last_attack_tick)
    (hopp : ¬(s.o_lane = s.p_lane ∧ |s.o_pos - s.p_pos| ≤ ATTACK_RANGE))
    (hneut : ∀ n ∈ s.neutrals,
      ¬(0 < n.health ∧ n.lane = s.o_lane ∧ |n.pos - s.o_pos| ≤ ATTACK_RANGE)) :
    opponentAttack "ATTACK" s = { s with o_last_attack_tick := s.tick } := by
  unfold opponentAttack
  rw [if_pos ⟨rfl, hcool⟩]
  dsimp only
  rw [if_neg hopp, attackNeutrals_none _ _ _ hneut]
  rfl

/-! Bounds of the speed and health updates, towards the range invariant of
claim C2. -/

lemma apply_speed_nonneg (b : ℤ) (dt sp : ℚ) (act : String) (ip : Bool) :
    0 ≤ apply_speed b dt sp act ip := by
  simp only [apply_speed]
  repeat' split
  all_goals exact clamp_lb _ _ _

lemma apply_speed_le_boostcap (b : ℤ) (dt sp : ℚ) (act : String) (ip : Bool) :
    apply_speed b dt sp act ip ≤ MAX_SPEED * BOOST_SPEED_MULT := by
  simp only [apply_speed]
  repeat' split
  all_goals first
    | exact clamp_ub _ _ _ (by norm_num [MAX_SPEED, BOOST_SPEED_MULT])
    | exact le_trans (clamp_ub _ _ _ (by norm_num [MAX_SPEED]))
        (by norm_num [MAX_SPEED, BOOST_SPEED_MULT])

lemma apply_speed_le_max (b : ℤ) (dt sp : ℚ) (act : String) (ip : Bool)
    (h : ¬(ip = true ∧ 0 < b)) : apply_speed b dt sp act ip ≤ MAX_SPEED := by
  simp only [apply_speed]
  rw [if_neg h]
  exact clamp_ub _ _ _ (by norm_num [MAX_SPEED])

lemma preAttack_o_speed (d : Draws) (st : State) (pa oa : String) (dt : ℚ) :
    (preAttack d st pa oa dt).o_speed
      = apply_speed st.p_boost_ticks_left dt st.o_speed oa false := by
  simp only [preAttack, flagsPhase, boostPhase, posPhase, lanePhase, neutralPhase,
    speedPhase, State.copy]
  split
  · split <;> rfl
  · rfl

lemma preAttack_p_speed_bounds (d : Draws) (st : State) (pa oa : String) (dt : ℚ) :
    0 ≤ (preAttack d st pa oa dt).p_speed ∧
      (preAttack d st pa oa dt).p_speed ≤ MAX_SPEED * BOOST_SPEED_MULT := by
  simp only [preAttack, flagsPhase, boostPhase, posPhase, lanePhase, neutralPhase,
    speedPhase, State.copy]
  split
  · split
    · exact ⟨clamp_lb _ _ _, le_trans (clamp_ub _ _ _ (by norm_num [MAX_SPEED]))
        (by norm_num [MAX_SPEED, BOOST_SPEED_MULT])⟩
    · exact ⟨apply_speed_nonneg _ _ _ _ _, apply_speed_le_boostcap _ _ _ _ _⟩
  · exact ⟨apply_speed_nonneg _ _ _ _ _, apply_speed_le_boostcap _ _ _ _ _⟩

lemma preAttack_p_speed_noboost (d : Draws) (st : State) (pa oa : String) (dt : ℚ) :
    (preAttack d st pa oa dt).p_boost_ticks_left = 0 →
      (preAttack d st pa oa dt).p_speed ≤ MAX_SPEED := by
  simp only [preAttack, flagsPhase, boostPhase, posPhase, lanePhase, neutralPhase,
    speedPhase, State.copy]
  split
  · split
    · intro _
      exact clamp_ub _ _ _ (by norm_num [MAX_SPEED])
    · rename_i h2
      intro h0
      exact absurd h0 h2
  · rename_i h1
    intro _
    exact apply_speed_le_max _ _ _ _ _ (by rintro ⟨-, hb⟩; exact h1 hb)

lemma playerAttack_inv (c : ℚ) (pa : String) (s : State) (hinv : CombatantInv c s) :
    CombatantInv c (playerAttack pa s) := by
  obtain ⟨h1, h2, h3, h4, h5, h6, h7, h8⟩ := hinv
  simp only [playerAttack]
  split
  · split
    · exact ⟨h1, h2, clamp_lb _ _ _, clamp_ub _ _ _ (by norm_num [MAX_HEALTH]), h5, h6, h7, h8⟩
    · split
      · exact ⟨h1, h2, h3, h4, h5, h6, h7, h8⟩
      · exact ⟨h1, h2, h3, h4, h5, h6, h7, h8⟩
  · exact ⟨h1, h2, h3, h4, h5, h6, h7, h8⟩

lemma opponentAttack_inv (c : ℚ) (oa : String) (s : State) (hinv : CombatantInv c s) :
    CombatantInv c (opponentAttack oa s) := by
  obtain ⟨h1, h2, h3, h4, h5, h6, h7, h8⟩ := hinv
  simp only [opponentAttack]
  split
  · split
    · exact ⟨clamp_lb _ _ _, clamp_ub _ _ _ (by norm_num [MAX_HEALTH]), h3, h4, h5, h6, h7, h8⟩
    · split
      · exact ⟨h1, h2, h3, h4, h5, h6, h7, h8⟩
      · exact ⟨h1, h2, h3, h4, h5, h6, h7, h8⟩
  · exact ⟨h1, h2, h3, h4, h5, h6, h7, h8⟩

lemma hazardPlayer_inv (c : ℚ) (dt hp : ℚ) (hl : ℤ) (s : State) (hinv : CombatantInv c s) :
    CombatantInv c (hazardPlayer dt hp hl s) := by
  obtain ⟨h1, h2, h3, h4, h5, h6, h7, h8⟩ := hinv
  simp only [hazardPlayer]
  split
  · exact ⟨clamp_lb _ _ _, clamp_ub _ _ _ (by norm_num [MAX_HEALTH]), h3, h4,
      mul_nonneg h5 (by norm_num [HAZARD_SLIP_FACTOR]),
      (mul_le_of_le_one_right h5 (by norm_num [HAZARD_SLIP_FACTOR])).trans h6, h7, h8⟩
  · exact ⟨h1, h2, h3, h4, h5, h6, h7, h8⟩

lemma hazardOpp_inv (c : ℚ) (d : Draws) (h : ℕ) (dt hp : ℚ) (hl : ℤ) (s : State)
    (hs : 0 ≤ d.oHazSlip h ∧ d.oHazSlip h ≤ 1) (hinv : CombatantInv c s) :
    CombatantInv c (hazardOpp d h dt hp hl s) := by
  obtain ⟨h1, h2, h3, h4, h5, h6, h7, h8⟩ := hinv
  have hf0 : 0 ≤ HAZARD_SLIP_FACTOR + (2/25) * d.oHazSlip h := by
    simp only [HAZARD_SLIP_FACTOR]
    linarith [mul_nonneg (show (0:ℚ) ≤ 2/25 by norm_num) hs.1]
  have hf1 : HAZARD_SLIP_FACTOR + (2/25) * d.oHazSlip h ≤ 1 := by
    simp only [HAZARD_SLIP_FACTOR]
    linarith [hs.2]
  simp only [hazardOpp]
  split
  · split
    · exact ⟨h1, h2, clamp_lb _ _ _, clamp_ub _ _ _ (by norm_num [MAX_HEALTH]), h5, h6,
        mul_nonneg h7 hf0, (mul_le_of_le_one_right h7 hf1).trans h8⟩
    · exact ⟨h1, h2, h3, h4, h5, h6, h7, h8⟩
  · exact ⟨h1, h2, h3, h4, h5, h6, h7, h8⟩

lemma hazardOne_inv (c : ℚ) (d : Draws) (dt : ℚ) (h : ℕ) (s : State) (hz : ℚ × ℤ × String)
    (hs : 0 ≤ d.oHazSlip h ∧ d.oHazSlip h ≤ 1) (hinv : CombatantInv c s) :
    CombatantInv c (hazardOne d dt h s hz) := by
  simp only [hazardOne]
  exact hazardOpp_inv c d h dt hz.1 hz.2.1 _ hs (hazardPlayer_inv c dt hz.1 hz.2.1 s hinv)

lemma hazardGo_inv (c : ℚ) (d : Draws) (dt : ℚ)
    (hd : ∀ h, 0 ≤ d.oHazSlip h ∧ d.oHazSlip h ≤ 1) :
    ∀ (L : List (ℚ × ℤ × String)) (h : ℕ) (s : State),
      CombatantInv c s → CombatantInv c (hazardGo d dt h s L) := by
  intro L
  induction L with
  | nil => intro h s hinv; exact hinv
  | cons hz rest ih =>
    intro h s hinv
    exact ih (h + 1) _ (hazardOne_inv c d dt h s hz (hd h) hinv)

lemma hazardPhase_inv (c : ℚ) (d : Draws) (dt : ℚ)
    (hd : ∀ h, 0 ≤ d.oHazSlip h ∧ d.oHazSlip h ≤ 1) (s : State)
    (hinv : CombatantInv c s) : CombatantInv c (hazardPhase d dt s) := by
  simp only [hazardPhase]
  exact hazardGo_inv c d dt hd _ _ _ hinv

lemma bumpP_inv (c : ℚ) (n : Neutral) (s : State) (hinv : CombatantInv c s) :
    CombatantInv c (bumpP n s) := by
  obtain ⟨h1, h2, h3, h4, h5, h6, h7, h8⟩ := hinv
  simp only [bumpP]
  split
  · exact ⟨clamp_lb _ _ _, clamp_ub _ _ _ (by norm_num [MAX_HEALTH]), h3, h4,
      mul_nonneg h5 (by norm_num), (mul_le_of_le_one_right h5 (by norm_num)).trans h6, h7, h8⟩
  · exact ⟨h1, h2, h3, h4, h5, h6, h7, h8⟩

lemma bumpO_inv (c : ℚ) (n : Neutral) (s : State) (hinv : CombatantInv c s) :
    CombatantInv c (bumpO n s) := by
  obtain ⟨h1, h2, h3, h4, h5, h6, h7, h8⟩ := hinv
  simp only [bumpO]
  split
  · exact ⟨h1, h2, clamp_lb _ _ _, clamp_ub _ _ _ (by norm_num [MAX_HEALTH]), h5, h6,
      mul_nonneg h7 (by norm_num), (mul_le_of_le_one_right h7 (by norm_num)).trans h8⟩
  · exact ⟨h1, h2, h3, h4, h5, h6, h7, h8⟩

lemma bumpOne_inv (c : ℚ) (s : State) (n : Neutral) (hinv : CombatantInv c s) :
    CombatantInv c (bumpOne s n) := by
  simp only [bumpOne]
  split
  · exact hinv
  · exact bumpO_inv c n _ (bumpP_inv c n s hinv)

lemma foldl_bumpOne_inv (c : ℚ) :
    ∀ (ns : List Neutral) (acc : State),
      CombatantInv c acc → CombatantInv c (List.foldl bumpOne acc ns) := by
  intro ns
  induction ns with
  | nil => intro acc hinv; exact hinv
  | cons n rest ih =>
    intro acc hinv
    simp only [List.foldl_cons]
    exact ih _ (bumpOne_inv c acc n hinv)

lemma bumpPhase_inv (c : ℚ) (s : State) (hinv : CombatantInv c s) :
    CombatantInv c (bumpPhase s) := by
  simp only [bumpPhase]
  exact foldl_bumpOne_inv c _ _ hinv

/-! Boost-counter frame lemmas through the post-attack phases. -/

lemma hazardPlayer_boost (dt hp : ℚ) (hl : ℤ) (s : State) :
    (hazardPlayer dt hp hl s).p_boost_ticks_left = s.p_boost_ticks_left := by
  simp only [hazardPlayer]; split <;> rfl

lemma hazardOpp_boost (d : Draws) (h : ℕ) (dt hp : ℚ) (hl : ℤ) (s : State) :
    (hazardOpp d h dt hp hl s).p_boost_ticks_left = s.p_boost_ticks_left := by
  simp only [hazardOpp]; split
  · split <;> rfl
  · rfl

lemma hazardOne_boost (d : Draws) (dt : ℚ) (h : ℕ) (s : State) (hz : ℚ × ℤ × String) :
    (hazardOne d dt h s hz).p_boost_ticks_left = s.p_boost_ticks_left := by
  simp only [hazardOne]
  rw [show ({ hazardOpp d h dt hz.1 hz.2.1 (hazardPlayer dt hz.1 hz.2.1 s) with
      neutrals := mapIdxFrom (hazardNeutral d h dt hz.1 hz.2.1) 0
        (hazardOpp d h dt hz.1 hz.2.1 (hazardPlayer dt hz.1 hz.2.1 s)).neutrals } : State).p_boost_ticks_left
    = (hazardOpp d h dt hz.1 hz.2.1 (hazardPlayer dt hz.1 hz.2.1 s)).p_boost_ticks_left from rfl]
  rw [hazardOpp_boost, hazardPlayer_boost]

lemma hazardGo_boost (d : Draws) (dt : ℚ) :
    ∀ (L : List (ℚ × ℤ × String)) (h : ℕ) (s : State),
      (hazardGo d dt h s L).p_boost_ticks_left = s.p_boost_ticks_left := by
  intro L
  induction L with
  | nil => intro h s; rfl
  | cons hz rest ih => intro h s; simp only [hazardGo]; rw [ih, hazardOne_boost]

lemma hazardPhase_boost (d : Draws) (dt : ℚ) (s : State) :
    (hazardPhase d dt s).p_boost_ticks_left = s.p_boost_ticks_left := by
  simp only [hazardPhase]; exact hazardGo_boost d dt _ _ _

lemma bumpP_boost (n : Neutral) (s : State) :
    (bumpP n s).p_boost_ticks_left = s.p_boost_ticks_left := by
  simp only [bumpP]; split <;> rfl

lemma bumpO_boost (n : Neutral) (s : State) :
    (bumpO n s).p_boost_ticks_left = s.p_boost_ticks_left := by
  simp only [bumpO]; split <;> rfl

lemma bumpOne_boost (s : State) (n : Neutral) :
    (bumpOne s n).p_boost_ticks_left = s.p_boost_ticks_left := by
  simp only [bumpOne]
  split
  · rfl
  · rw [bumpO_boost, bumpP_boost]

lemma foldl_bumpOne_boost :
    ∀ (ns : List Neutral) (acc : State),
      (List.foldl bumpOne acc ns).p_boost_ticks_left = acc.p_boost_ticks_left := by
  intro ns
  induction ns with
  | nil => intro acc; rfl
  | cons n rest ih => intro acc; simp only [List.foldl_cons]; rw [ih, bumpOne_boost]

lemma bumpPhase_boost (s : State) :
    (bumpPhase s).p_boost_ticks_left = s.p_boost_ticks_left := by
  simp only [bumpPhase]; exact foldl_bumpOne_boost _ _

lemma playerAttack_fires_p_last (s : State)
    (h : ATTACK_COOLDOWN_TICKS ≤ s.tick - s.p_last_attack_tick) :
    (playerAttack "ATTACK" s).p_last_attack_tick = s.tick := by
  unfold playerAttack
  rw [if_pos ⟨rfl, h⟩]
  dsimp only
  split
  · rfl
  · split <;> rfl

/-! Neutral-list structure lemmas, towards claim C10. -/

lemma mapIdxFrom_map_field {β : Type} (g : Neutral → β) (f : ℕ → Neutral → Neutral)
    (hf : ∀ j n, g (f j n) = g n) :
    ∀ (i : ℕ) (L : List Neutral), (mapIdxFrom f i L).map g = L.map g := by
  intro i L
  induction L generalizing i with
  | nil => rfl
  | cons n rest ih => simp only [mapIdxFrom, List.map_cons, hf, ih]

lemma updateNeutral_id (d : Draws) (t : ℤ) (dt : ℚ) (i : ℕ) (n : Neutral) :
    (updateNeutral d t dt i n).id = n.id := by
  simp only [updateNeutral]
  split <;> rfl

lemma hazardNeutral_id (d : Draws) (h : ℕ) (dt hp : ℚ) (hl : ℤ) (i : ℕ) (n : Neutral) :
    (hazardNeutral d h dt hp hl i n).id = n.id := by
  simp only [hazardNeutral]
  split
  · split <;> rfl
  · rfl

lemma attackNeutrals_map_id (lane : ℤ) (pos : ℚ) :
    ∀ ns : List Neutral, (attackNeutrals lane pos ns).1.map Neutral.id = ns.map Neutral.id := by
  intro ns
  induction ns with
  | nil => rfl
  | cons n rest ih =>
    simp only [attackNeutrals]
    split
    · simp only [List.map_cons]
    · simp only [List.map_cons, ih]

lemma playerAttack_neutrals_map_id (pa : String) (s : State) :
    (playerAttack pa s).neutrals.map Neutral.id = s.neutrals.map Neutral.id := by
  simp only [playerAttack]
  split
  · split
    · rfl
    · split
      · exact attackNeutrals_map_id _ _ _
      · exact attackNeutrals_map_id _ _ _
  · rfl

lemma opponentAttack_neutrals_map_id (oa : String) (s : State) :
    (opponentAttack oa s).neutrals.map Neutral.id = s.neutrals.map Neutral.id := by
  simp only [opponentAttack]
  split
  · split
    · rfl
    · split
      · exact attackNeutrals_map_id _ _ _
      · exact attackNeutrals_map_id _ _ _
  · rfl

lemma hazardPlayer_neutrals (dt hp : ℚ) (hl : ℤ) (s : State) :
    (hazardPlayer dt hp hl s).neutrals = s.neutrals := by
  simp only [hazardPlayer]; split <;> rfl

lemma hazardOpp_neutrals (d : Draws) (h : ℕ) (dt hp : ℚ) (hl : ℤ) (s : State) :
    (hazardOpp d h dt hp hl s).neutrals = s.neutrals := by
  simp only [hazardOpp]; split
  · split <;> rfl
  · rfl

lemma hazardOne_neutrals_map_id (d : Draws) (dt : ℚ) (h : ℕ) (s : State)
    (hz : ℚ × ℤ × String) :
    (hazardOne d dt h s hz).neutrals.map Neutral.id = s.neutrals.map Neutral.id := by
  simp only [hazardOne]
  rw [mapIdxFrom_map_field Neutral.id _ (fun j n => hazardNeutral_id d h dt hz.1 hz.2.1 j n)]
  rw [hazardOpp_neutrals, hazardPlayer_neutrals]

lemma hazardGo_neutrals_map_id (d : Draws) (dt : ℚ) :
    ∀ (L : List (ℚ × ℤ × String)) (h : ℕ) (s : State),
      (hazardGo d dt h s L).neutrals.map Neutral.id = s.neutrals.map Neutral.id := by
  intro L
  induction L with
  | nil => intro h s; rfl
  | cons hz rest ih =>
    intro h s
    simp only [hazardGo]
    rw [ih, hazardOne_neutrals_map_id]

lemma bumpP_neutrals (n : Neutral) (s : State) : (bumpP n s).neutrals = s.neutrals := by
  simp only [bumpP]; split <;> rfl

lemma bumpO_neutrals (n : Neutral) (s : State) : (bumpO n s).neutrals = s.neutrals := by
  simp only [bumpO]; split <;> rfl

lemma bumpOne_neutrals (s : State) (n : Neutral) : (bumpOne s n).neutrals = s.neutrals := by
  simp only [bumpOne]
  split
  · rfl
  · rw [bumpO_neutrals, bumpP_neutrals]

lemma foldl_bumpOne_neutrals :
    ∀ (ns : List Neutral) (acc : State), (List.foldl bumpOne acc ns).neutrals = acc.neutrals := by
  intro ns
  induction ns with
  | nil => intro acc; rfl
  | cons n rest ih => intro acc; simp only [List.foldl_cons]; rw [ih, bumpOne_neutrals]

lemma bumpPhase_neutrals (s : State) : (bumpPhase s).neutrals = s.neutrals := by
  simp only [bumpPhase]; exact foldl_bumpOne_neutrals _ _

lemma bumpOne_dead (acc : State) (n : Neutral) (h : n.health ≤ 0) : bumpOne acc n = acc := by
  simp only [bumpOne, if_pos h]

lemma foldl_bumpOne_filter :
    ∀ (ns : List Neutral) (acc : State),
      List.foldl bumpOne acc ns
        = List.foldl bumpOne acc (ns.filter (fun n2 => decide (0 < n2.health))) := by
  intro ns
  induction ns with
  | nil => intro acc; rfl
  | cons n rest ih =>
    intro acc
    by_cases h : n.health ≤ 0
    · rw [List.filter_cons, if_neg (by simp [not_lt.mpr h])]
      simp only [List.foldl_cons]
      rw [bumpOne_dead acc n h]
      exact ih acc
    · push_neg at h
      rw [List.filter_cons, if_pos (by simpa using h)]
      simp only [List.foldl_cons]
      exact ih _

lemma attackNeutrals_dead_untouched (lane : ℤ) (pos : ℚ) :
    ∀ (ns : List Neutral) (j : ℕ) (m : Neutral),
      ns[j]? = some m → m.health ≤ 0 → (attackNeutrals lane pos ns).1[j]? = some m := by
  intro ns
  induction ns with
  | nil => intro j m hj _; simp at hj
  | cons k rest ih =>
    intro j m hj hdead
    simp only [attackNeutrals]
    split
    · rename_i hc
      cases j with
      | zero =>
        simp only [List.getElem?_cons_zero, Option.some.injEq] at hj
        subst hj
        exact absurd hc.1 (not_lt.mpr hdead)
      | succ j =>
        simp only [List.getElem?_cons_succ] at hj ⊢
        exact hj
    · cases j with
      | zero =>
        simpa using hj
      | succ j =>
        simp only [List.getElem?_cons_succ] at hj ⊢
        exact ih j m hj hdead

/-! Order and fold helper lemmas for the alpha-beta / minimax equivalence
(claim C7).  The quantity `max alpha (min x beta)` is the value `x` seen
through the `(alpha, beta)` window; alpha-beta search computes the true
minimax value only up to this window. -/

lemma le_foldl_max : ∀ (L : List ℚ) (x : ℚ), x ≤ L.foldl max x := by
  intro L
  induction L with
  | nil => intro x; exact le_refl x
  | cons z L ih =>
    intro x
    simp only [List.foldl_cons]
    exact le_trans (le_max_left x z) (ih (max x z))

lemma foldl_min_le : ∀ (L : List ℚ) (x : ℚ), L.foldl min x ≤ x := by
  intro L
  induction L with
  | nil => intro x; exact le_refl x
  | cons z L ih =>
    intro x
    simp only [List.foldl_cons]
    exact le_trans (ih (min x z)) (min_le_left x z)

lemma mem_le_foldl_max : ∀ (L : List ℚ) (x y : ℚ), y ∈ L → y ≤ L.foldl max x := by
  intro L
  induction L with
  | nil => intro x y hy; simp at hy
  | cons z L ih =>
    intro x y hy
    simp only [List.foldl_cons]
    rcases List.mem_cons.mp hy with rfl | hy2
    · exact le_trans (le_max_right x y) (le_foldl_max L (max x y))
    · exact ih (max x z) y hy2

lemma foldl_min_le_mem : ∀ (L : List ℚ) (x y : ℚ), y ∈ L → L.foldl min x ≤ y := by
  intro L
  induction L with
  | nil => intro x y hy; simp at hy
  | cons z L ih =>
    intro x y hy
    simp only [List.foldl_cons]
    rcases List.mem_cons.mp hy with rfl | hy2
    · exact le_trans (foldl_min_le L (min x y)) (min_le_right x y)
    · exact ih (min x z) y hy2

lemma abMaxGo_ge (rec : State → ℚ → ℚ → ℚ) (ch : String → State) :
    ∀ (acts : List String) (v alpha beta : ℚ), v ≤ abMaxGo rec ch acts v alpha beta := by
  intro acts
  induction acts with
  | nil => intro v alpha beta; exact le_refl v
  | cons a rest ih =>
    intro v alpha beta
    simp only [abMaxGo]
    split
    · exact le_max_left _ _
    · exact le_trans (le_max_left _ _) (ih _ _ _)

lemma abMinGo_le (rec : State → ℚ → ℚ → ℚ) (ch : String → State) :
    ∀ (acts : List String) (v alpha beta : ℚ), abMinGo rec ch acts v alpha beta ≤ v := by
  intro acts
  induction acts with
  | nil => intro v alpha beta; exact le_refl v
  | cons a rest ih =>
    intro v alpha beta
    simp only [abMinGo]
    split
    · exact min_le_left _ _
    · exact le_trans (ih _ _ _) (min_le_left _ _)

lemma max_min_congr (alpha beta x y : ℚ)
    (h : max alpha x = max alpha y) :
    max alpha (min x beta) = max alpha (min y beta) := by
  rcases le_or_lt x alpha with hx | hx
  · have hy : y ≤ alpha := by
      by_contra hy
      push_neg at hy
      rw [max_eq_left hx, max_eq_right (le_of_lt hy)] at h
      exact absurd h (ne_of_lt hy)
    rw [max_eq_left (le_trans (min_le_left x beta) hx),
      max_eq_left (le_trans (min_le_left y beta) hy)]
  · rw [max_eq_right (le_of_lt hx)] at h
    rcases le_or_lt y alpha with hy | hy
    · rw [max_eq_left hy] at h
      exact absurd h (ne_of_gt hx)
    · rw [max_eq_right (le_of_lt hy)] at h
      rw [h]

lemma foldl_max_seed_congr (alpha beta : ℚ) :
    ∀ (L : List ℚ) (x y : ℚ), max alpha x = max alpha y →
      max alpha (min (L.foldl max x) beta) = max alpha (min (L.foldl max y) beta) := by
  intro L
  induction L with
  | nil => intro x y h; exact max_min_congr alpha beta x y h
  | cons z L ih =>
    intro x y h
    simp only [List.foldl_cons]
    exact ih (max x z) (max y z) (by rw [← max_assoc, h, max_assoc])

lemma foldl_min_seed_congr (alpha beta : ℚ) :
    ∀ (L : List ℚ) (x y : ℚ), min beta x = min beta y →
      max alpha (min (L.foldl min x) beta) = max alpha (min (L.foldl min y) beta) := by
  intro L
  induction L with
  | nil =>
    intro x y h
    simp only [List.foldl_nil]
    rw [min_comm x beta, min_comm y beta, h]
  | cons z L ih =>
    intro x y h
    simp only [List.foldl_cons]
    exact ih (min x z) (min y z) (by rw [← min_assoc, h, min_assoc])

lemma max_min_descend (alpha alpha2 beta v2 A B : ℚ)
    (h2 : alpha2 = max alpha v2) (hb : alpha2 < beta)
    (hA : v2 ≤ A) (hB : alpha < v2 → v2 ≤ B)
    (heq : max alpha2 (min A beta) = max alpha2 (min B beta)) :
    max alpha (min A beta) = max alpha (min B beta) := by
  rcases le_or_lt v2 alpha with hv | hv
  · rw [h2, max_eq_left hv] at heq
    exact heq
  · have hBv := hB hv
    have h2v : alpha2 = v2 := by rw [h2]; exact max_eq_right (le_of_lt hv)
    have hv2b : v2 < beta := h2v ▸ hb
    have hminA : v2 ≤ min A beta := le_min hA (le_of_lt hv2b)
    have hminB : v2 ≤ min B beta := le_min hBv (le_of_lt hv2b)
    rw [h2v, max_eq_right hminA, max_eq_right hminB] at heq
    rw [max_eq_right (le_trans (le_of_lt hv) hminA),
      max_eq_right (le_trans (le_of_lt hv) hminB)]
    exact heq

lemma min_max_descend (alpha beta beta2 v2 A B : ℚ)
    (h2 : beta2 = min beta v2)
    (hA : A ≤ v2) (hB : v2 < beta → B ≤ v2)
    (heq : max alpha (min A beta2) = max alpha (min B beta2)) :
    max alpha (min A beta) = max alpha (min B beta) := by
  rcases le_or_lt beta v2 with hv | hv
  · rw [h2, min_eq_left hv] at heq
    exact heq
  · have hBv := hB hv
    have h2v : beta2 = v2 := by rw [h2]; exact min_eq_right (le_of_lt hv)
    rw [h2v] at heq
    rw [min_eq_left (le_trans hA (le_of_lt hv)), min_eq_left (le_trans hBv (le_of_lt hv))]
    rw [min_eq_left hA, min_eq_left hBv] at heq
    exact heq

/-- The maximizing alpha-beta loop agrees, through the `(alpha, beta)`
window, with the plain fold of `max` over the children's minimax values,
provided each child agrees with its minimax value through every window. -/
lemma abMaxGo_spec (rec : State → ℚ → ℚ → ℚ) (mv : State → ℚ) (ch : String → State) :
    ∀ (acts : List String),
      (∀ a ∈ acts, ∀ alpha beta : ℚ, alpha < beta →
        max alpha (min (rec (ch a) alpha beta) beta) = max alpha (min (mv (ch a)) beta)) →
      ∀ (v alpha beta : ℚ), alpha < beta →
        max alpha (min (abMaxGo rec ch acts v alpha beta) beta)
          = max alpha (min ((acts.map (fun a => mv (ch a))).foldl max v) beta) := by
  intro acts
  induction acts with
  | nil => intro _ v alpha beta _; rfl
  | cons a rest ih =>
    intro hch v alpha beta hab
    have hceq := hch a (List.mem_cons_self a rest) alpha beta hab
    simp only [abMaxGo, List.map_cons, List.foldl_cons]
    by_cases hcut : beta ≤ max alpha (max v (rec (ch a) alpha beta))
    · rw [if_pos hcut]
      have hvr : beta ≤ max v (rec (ch a) alpha beta) := by
        by_contra hlt
        push_neg at hlt
        exact absurd hcut (not_le.mpr (max_lt hab hlt))
      have hL : max alpha (min (max v (rec (ch a) alpha beta)) beta) = beta := by
        rw [min_eq_right hvr]
        exact max_eq_right (le_of_lt hab)
      have hseed : beta ≤ max v (mv (ch a)) := by
        rcases le_or_lt beta v with hbv | hvb
        · exact le_max_of_le_left hbv
        · rcases le_or_lt beta (rec (ch a) alpha beta) with hbr | hrb
          · have h1 : max alpha (min (rec (ch a) alpha beta) beta) = beta := by
              rw [min_eq_right hbr]
              exact max_eq_right (le_of_lt hab)
            rw [h1] at hceq
            have h2 : beta ≤ min (mv (ch a)) beta := by
              rcases le_or_lt (min (mv (ch a)) beta) alpha with hm | hm
              · rw [max_eq_left hm] at hceq
                exact absurd hceq.symm (ne_of_lt hab)
              · rw [max_eq_right (le_of_lt hm)] at hceq
                exact le_of_eq hceq
            exact le_max_of_le_right (le_trans h2 (min_le_left _ _))
          · exact absurd hvr (not_le.mpr (max_lt hvb hrb))
      rw [hL, min_eq_right (le_trans hseed (le_foldl_max _ _)), max_eq_right (le_of_lt hab)]
    · rw [if_neg hcut]
      push_neg at hcut
      have hih := ih (fun a2 ha2 => hch a2 (List.mem_cons_of_mem a ha2))
        (max v (rec (ch a) alpha beta)) (max alpha (max v (rec (ch a) alpha beta))) beta hcut
      have hrb : rec (ch a) alpha beta < beta :=
        lt_of_le_of_lt (le_trans (le_max_right v _) (le_max_right alpha _)) hcut
      rw [min_eq_left (le_of_lt hrb)] at hceq
      rcases le_or_lt (min (mv (ch a)) beta) alpha with hma | hma
      · have hra : rec (ch a) alpha beta ≤ alpha := by
          have h1 : max alpha (rec (ch a) alpha beta) = alpha := by
            rw [hceq]
            exact max_eq_left hma
          exact max_eq_left_iff.mp h1
        have hmva : mv (ch a) ≤ alpha := by
          rcases le_or_lt (mv (ch a)) beta with hmb | hbm
          · rwa [min_eq_left hmb] at hma
          · rw [min_eq_right (le_of_lt hbm)] at hma
            exact absurd hma (not_le.mpr hab)
        have hseedeq :
            max (max alpha (max v (rec (ch a) alpha beta))) (max v (rec (ch a) alpha beta))
              = max (max alpha (max v (rec (ch a) alpha beta))) (max v (mv (ch a))) := by
          rw [max_eq_left (le_max_right alpha _)]
          rw [max_eq_left (max_le (le_trans (le_max_left v _) (le_max_right alpha _))
            (le_trans hmva (le_max_left alpha _)))]
        have hcomb := hih.trans
          (foldl_max_seed_congr (max alpha (max v (rec (ch a) alpha beta))) beta
            (rest.map fun a2 => mv (ch a2)) (max v (rec (ch a) alpha beta))
            (max v (mv (ch a))) hseedeq)
        refine max_min_descend alpha (max alpha (max v (rec (ch a) alpha beta))) beta
          (max v (rec (ch a) alpha beta)) _ _ rfl hcut (abMaxGo_ge _ _ _ _ _ _) ?_ hcomb
        intro hav
        have hveq : max v (rec (ch a) alpha beta) = v := by
          rcases le_total (rec (ch a) alpha beta) v with hrv | hvr2
          · exact max_eq_left hrv
          · exfalso
            have hle : max v (rec (ch a) alpha beta) ≤ alpha := by
              rw [max_eq_right hvr2]
              exact hra
            exact absurd hav (not_lt.mpr hle)
        rw [hveq]
        exact le_trans (le_max_left v (mv (ch a))) (le_foldl_max _ _)
      · have h1 : max alpha (min (mv (ch a)) beta) = min (mv (ch a)) beta :=
          max_eq_right (le_of_lt hma)
        rw [h1] at hceq
        have hr_eq : rec (ch a) alpha beta = min (mv (ch a)) beta := by
          rcases le_or_lt (rec (ch a) alpha beta) alpha with hra | har
          · rw [max_eq_left hra] at hceq
            exact absurd hceq (ne_of_lt hma)
          · rw [max_eq_right (le_of_lt har)] at hceq
            exact hceq
        have hmlt : mv (ch a) < beta := by
          by_contra hge
          push_neg at hge
          rw [min_eq_right hge] at hr_eq
          rw [hr_eq] at hrb
          exact lt_irrefl beta hrb
        have hr_mva : rec (ch a) alpha beta = mv (ch a) := by
          rwa [min_eq_left (le_of_lt hmlt)] at hr_eq
        rw [hr_mva] at hih hcut ⊢
        exact max_min_descend alpha (max alpha (max v (mv (ch a)))) beta
          (max v (mv (ch a))) _ _ rfl hcut (abMaxGo_ge _ _ _ _ _ _)
          (fun _ => le_foldl_max _ _) hih

/-- Mirror of `abMaxGo_spec` for the minimizing alpha-beta loop. -/
lemma abMinGo_spec (rec : State → ℚ → ℚ → ℚ) (mv : State → ℚ) (ch : String → State) :
    ∀ (acts : List String),
      (∀ a ∈ acts, ∀ alpha beta : ℚ, alpha < beta →
        max alpha (min (rec (ch a) alpha beta) beta) = max alpha (min (mv (ch a)) beta)) →
      ∀ (v alpha beta : ℚ), alpha < beta →
        max alpha (min (abMinGo rec ch acts v alpha beta) beta)
          = max alpha (min ((acts.map (fun a => mv (ch a))).foldl min v) beta) := by
  intro acts
  induction acts with
  | nil => intro _ v alpha beta _; rfl
  | cons a rest ih =>
    intro hch v alpha beta hab
    have hceq := hch a (List.mem_cons_self a rest) alpha beta hab
    simp only [abMinGo, List.map_cons, List.foldl_cons]
    by_cases hcut : min beta (min v (rec (ch a) alpha beta)) ≤ alpha
    · rw [if_pos hcut]
      have hvr : min v (rec (ch a) alpha beta) ≤ alpha := by
        by_contra hlt
        push_neg at hlt
        exact absurd hcut (not_le.mpr (lt_min hab hlt))
      have hL : max alpha (min (min v (rec (ch a) alpha beta)) beta) = alpha :=
        max_eq_left (le_trans (min_le_left _ _) hvr)
      have hseed : min v (mv (ch a)) ≤ alpha := by
        rcases le_or_lt v alpha with hva | hav
        · exact le_trans (min_le_left _ _) hva
        · have hra : rec (ch a) alpha beta ≤ alpha := by
            rcases le_or_lt (rec (ch a) alpha beta) alpha with h1 | h2
            · exact h1
            · exact absurd hvr (not_le.mpr (lt_min hav h2))
          have h1 : max alpha (min (rec (ch a) alpha beta) beta) = alpha :=
            max_eq_left (le_trans (min_le_left _ _) hra)
          rw [h1] at hceq
          have h2 : min (mv (ch a)) beta ≤ alpha := by
            rcases le_or_lt (min (mv (ch a)) beta) alpha with hm | hm
            · exact hm
            · rw [max_eq_right (le_of_lt hm)] at hceq
              exact absurd hceq (ne_of_lt hm)
          have hmva : mv (ch a) ≤ alpha := by
            rcases le_or_lt (mv (ch a)) beta with hmb | hbm
            · rwa [min_eq_left hmb] at h2
            · rw [min_eq_right (le_of_lt hbm)] at h2
              exact absurd h2 (not_le.mpr hab)
          exact le_trans (min_le_right _ _) hmva
      rw [hL, max_eq_left (le_trans (min_le_left _ _) (le_trans (foldl_min_le _ _) hseed))]
    · rw [if_neg hcut]
      push_neg at hcut
      have hih := ih (fun a2 ha2 => hch a2 (List.mem_cons_of_mem a ha2))
        (min v (rec (ch a) alpha beta)) alpha (min beta (min v (rec (ch a) alpha beta))) hcut
      have hrb : alpha < rec (ch a) alpha beta :=
        lt_of_lt_of_le hcut (le_trans (min_le_right beta _) (min_le_right v _))
      rcases le_or_lt beta (mv (ch a)) with hbm | hmb
      · have h1 : max alpha (min (mv (ch a)) beta) = beta := by
          rw [min_eq_right hbm]
          exact max_eq_right (le_of_lt hab)
        rw [h1] at hceq
        have hrbeta : beta ≤ rec (ch a) alpha beta := by
          rcases le_or_lt beta (rec (ch a) alpha beta) with h3 | h3
          · exact h3
          · exfalso
            rw [min_eq_left (le_of_lt h3)] at hceq
            exact absurd hceq (ne_of_lt (max_lt hab h3))
        have hseedeq :
            min (min beta (min v (rec (ch a) alpha beta))) (min v (rec (ch a) alpha beta))
              = min (min beta (min v (rec (ch a) alpha beta))) (min v (mv (ch a))) := by
          rw [min_eq_left (min_le_right beta _)]
          rw [min_eq_left (le_min (le_trans (min_le_right beta _) (min_le_left v _))
            (le_trans (min_le_left beta _) hbm))]
        have hcomb := hih.trans
          (foldl_min_seed_congr alpha (min beta (min v (rec (ch a) alpha beta)))
            (rest.map fun a2 => mv (ch a2)) (min v (rec (ch a) alpha beta))
            (min v (mv (ch a))) hseedeq)
        refine min_max_descend alpha beta (min beta (min v (rec (ch a) alpha beta)))
          (min v (rec (ch a) alpha beta)) _ _ rfl (abMinGo_le _ _ _ _ _ _) ?_ hcomb
        intro hvb
        have hveq : min v (rec (ch a) alpha beta) = v := by
          rcases le_total v (rec (ch a) alpha beta) with hvr2 | hrv
          · exact min_eq_left hvr2
          · exfalso
            rw [min_eq_right hrv] at hvb
            exact absurd hvb (not_lt.mpr hrbeta)
        rw [hveq]
        exact le_trans (foldl_min_le _ _) (min_le_left v _)
      · rw [min_eq_left (le_of_lt hmb)] at hceq
        have hrltb : rec (ch a) alpha beta < beta := by
          rcases le_or_lt beta (rec (ch a) alpha beta) with h3 | h3
          · exfalso
            rw [min_eq_right h3, max_eq_right (le_of_lt hab)] at hceq
            exact absurd hceq (ne_of_gt (max_lt hab hmb))
          · exact h3
        rw [min_eq_left (le_of_lt hrltb)] at hceq
        have hr_mva : rec (ch a) alpha beta = mv (ch a) := by
          rw [max_eq_right (le_of_lt hrb)] at hceq
          rcases le_or_lt (mv (ch a)) alpha with hm | hm
          · rw [max_eq_left hm] at hceq
            exact absurd hceq (ne_of_gt hrb)
          · rwa [max_eq_right (le_of_lt hm)] at hceq
        rw [hr_mva] at hih hcut ⊢
        exact min_max_descend alpha beta (min beta (min v (mv (ch a))))
          (min v (mv (ch a))) _ _ rfl (abMinGo_le _ _ _ _ _ _)
          (fun _ => foldl_min_le _ _) hih

/-- Alpha-beta equals minimax through any `(alpha, beta)` window, at every
depth (the Knuth-Moore bracketing property, for the source's fail-soft
loops with their `-1e9` / `1e9` seeds). -/
lemma ab_mm_clamped (child : Bool → State → String → State) (mode : String) :
    ∀ (dep : ℕ) (s : State) (alpha beta : ℚ) (maxi : Bool), alpha < beta →
      max alpha (min (alphabeta child mode dep s alpha beta maxi) beta)
        = max alpha (min (minimax child mode dep s maxi) beta) := by
  intro dep
  induction dep with
  | zero => intro s alpha beta maxi _; rfl
  | succ dd ih =>
    intro s alpha beta maxi hab
    simp only [alphabeta, minimax]
    split
    · rfl
    · split
      · exact abMaxGo_spec (fun s2 a2 b2 => alphabeta child mode dd s2 a2 b2 false)
          (fun s2 => minimax child mode dd s2 false) (child true s) ACTIONS
          (fun a _ alpha2 beta2 h2 => ih (child true s a) alpha2 beta2 false h2)
          (-BIG) alpha beta hab
      · exact abMinGo_spec (fun s2 a2 b2 => alphabeta child mode dd s2 a2 b2 true)
          (fun s2 => minimax child mode dd s2 true) (child false s) ACTIONS
          (fun a _ alpha2 beta2 h2 => ih (child false s a) alpha2 beta2 true h2)
          BIG alpha beta hab

lemma foldl_max_lt (B : ℚ) : ∀ (L : List ℚ) (x : ℚ), x < B → (∀ y ∈ L, y < B) →
    L.foldl max x < B := by
  intro L
  induction L with
  | nil => intro x hx _; exact hx
  | cons z L ih =>
    intro x hx hy
    simp only [List.foldl_cons]
    exact ih (max x z) (max_lt hx (hy z (by simp))) (fun y h => hy y (by simp [h]))

lemma lt_foldl_min (B : ℚ) : ∀ (L : List ℚ) (x : ℚ), B < x → (∀ y ∈ L, B < y) →
    B < L.foldl min x := by
  intro L
  induction L with
  | nil => intro x hx _; exact hx
  | cons z L ih =>
    intro x hx hy
    simp only [List.foldl_cons]
    exact ih (min x z) (lt_min hx (hy z (by simp))) (fun y h => hy y (by simp [h]))

/-- When every leaf evaluation of the depth-`dep` tree lies strictly inside
`(-1e9, 1e9)`, so does the minimax value. -/
lemma minimax_bounds (child : Bool → State → String → State) (mode : String) :
    ∀ (dep : ℕ) (s : State) (maxi : Bool),
      (∀ t ∈ searchLeaves child dep s maxi,
        -BIG < evaluate_state_fun t mode ∧ evaluate_state_fun t mode < BIG) →
      -BIG < minimax child mode dep s maxi ∧ minimax child mode dep s maxi < BIG := by
  intro dep
  induction dep with
  | zero =>
    intro s maxi hb
    exact hb s (by simp [searchLeaves])
  | succ dd ih =>
    intro s maxi hb
    simp only [minimax]
    split
    · rename_i hterm
      exact hb s (by simp [searchLeaves, hterm])
    · rename_i hterm
      have hleaf : ∀ a ∈ ACTIONS, ∀ t ∈ searchLeaves child dd (child maxi s a) (!maxi),
          -BIG < evaluate_state_fun t mode ∧ evaluate_state_fun t mode < BIG := by
        intro a ha t ht
        apply hb
        simp only [searchLeaves]
        rw [if_neg hterm]
        exact List.mem_flatten.mpr ⟨_, List.mem_map_of_mem _ ha, ht⟩
      split
      · rename_i hmaxi
        subst hmaxi
        simp only [Bool.not_true] at hleaf
        constructor
        · have hbnd := ih (child true s "ACCEL") false (hleaf "ACCEL" (by simp [ACTIONS]))
          exact lt_of_lt_of_le hbnd.1 (mem_le_foldl_max _ _ _
            (List.mem_map_of_mem _ (by simp [ACTIONS])))
        · apply foldl_max_lt
          · norm_num [BIG]
          · intro y hy
            obtain ⟨a, ha, rfl⟩ := List.mem_map.mp hy
            exact (ih (child true s a) false (hleaf a ha)).2
      · rename_i hmaxi
        have hmaxi2 : maxi = false := by
          cases maxi
          · rfl
          · exact absurd rfl hmaxi
        subst hmaxi2
        simp only [Bool.not_false] at hleaf
        constructor
        · apply lt_foldl_min
          · norm_num [BIG]
          · intro y hy
            obtain ⟨a, ha, rfl⟩ := List.mem_map.mp hy
            exact (ih (child false s a) true (hleaf a ha)).1
        · have hbnd := ih (child false s "ACCEL") true (hleaf "ACCEL" (by simp [ACTIONS]))
          exact lt_of_le_of_lt (foldl_min_le_mem _ _ _
            (List.mem_map_of_mem _ (by simp [ACTIONS]))) hbnd.2

lemma abCntMaxGo_fst (rec : State → ℚ → ℚ → ℚ × ℕ) (recV : State → ℚ → ℚ → ℚ)
    (ch : String → State) (hr : ∀ s a b, (rec s a b).1 = recV s a b) :
    ∀ (acts : List String) (v alpha beta : ℚ) (c : ℕ),
      (abCntMaxGo rec ch acts v alpha beta c).1 = abMaxGo recV ch acts v alpha beta := by
  intro acts
  induction acts with
  | nil => intro v alpha beta c; rfl
  | cons a rest ih =>
    intro v alpha beta c
    simp only [abCntMaxGo, abMaxGo, hr]
    split
    · rfl
    · exact ih _ _ _ _

lemma abCntMinGo_fst (rec : State → ℚ → ℚ → ℚ × ℕ) (recV : State → ℚ → ℚ → ℚ)
    (ch : String → State) (hr : ∀ s a b, (rec s a b).1 = recV s a b) :
    ∀ (acts : List String) (v alpha beta : ℚ) (c : ℕ),
      (abCntMinGo rec ch acts v alpha beta c).1 = abMinGo recV ch acts v alpha beta := by
  intro acts
  induction acts with
  | nil => intro v alpha beta c; rfl
  | cons a rest ih =>
    intro v alpha beta c
    simp only [abCntMinGo, abMinGo, hr]
    split
    · rfl
    · exact ih _ _ _ _

/-- The instrumented search computes the same value as `_alphabeta`. -/
lemma alphabetaCount_fst (child : Bool → State → String → State) (mode : String) :
    ∀ (dep : ℕ) (s : State) (alpha beta : ℚ) (maxi : Bool),
      (alphabetaCount child mode dep s alpha beta maxi).1
        = alphabeta child mode dep s alpha beta maxi := by
  intro dep
  induction dep with
  | zero => intro s alpha beta maxi; rfl
  | succ dd ih =>
    intro s alpha beta maxi
    simp only [alphabetaCount, alphabeta]
    split
    · rfl
    · split
      · exact abCntMaxGo_fst _ _ (child true s) (fun s2 a2 b2 => ih s2 a2 b2 false)
          ACTIONS (-BIG) alpha beta 0
      · exact abCntMinGo_fst _ _ (child false s) (fun s2 a2 b2 => ih s2 a2 b2 true)
          ACTIONS BIG alpha beta 0

lemma abCntMaxGo_count (rec : State → ℚ → ℚ → ℚ × ℕ) (ch : String → State) (K : ℕ)
    (hr : ∀ s a b, (rec s a b).2 ≤ K) :
    ∀ (acts : List String) (v alpha beta : ℚ) (c : ℕ),
      (abCntMaxGo rec ch acts v alpha beta c).2 ≤ c + acts.length * K := by
  intro acts
  induction acts with
  | nil => intro v alpha beta c; simp [abCntMaxGo]
  | cons a rest ih =>
    intro v alpha beta c
    simp only [abCntMaxGo, List.length_cons]
    split
    · have h1 := hr (ch a) alpha beta
      have h2 : (rest.length + 1) * K = rest.length * K + K := Nat.succ_mul _ _
      omega
    · have h1 := hr (ch a) alpha beta
      have h2 : (rest.length + 1) * K = rest.length * K + K := Nat.succ_mul _ _
      have h3 := ih (max v (rec (ch a) alpha beta).1)
        (max alpha (max v (rec (ch a) alpha beta).1)) beta (c + (rec (ch a) alpha beta).2)
      omega

lemma abCntMinGo_count (rec : State → ℚ → ℚ → ℚ × ℕ) (ch : String → State) (K : ℕ)
    (hr : ∀ s a b, (rec s a b).2 ≤ K) :
    ∀ (acts : List String) (v alpha beta : ℚ) (c : ℕ),
      (abCntMinGo rec ch acts v alpha beta c).2 ≤ c + acts.length * K := by
  intro acts
  induction acts with
  | nil => intro v alpha beta c; simp [abCntMinGo]
  | cons a rest ih =>
    intro v alpha beta c
    simp only [abCntMinGo, List.length_cons]
    split
    · have h1 := hr (ch a) alpha beta
      have h2 : (rest.length + 1) * K = rest.length * K + K := Nat.succ_mul _ _
      omega
    · have h1 := hr (ch a) alpha beta
      have h2 : (rest.length + 1) * K = rest.length * K + K := Nat.succ_mul _ _
      have h3 := ih (min v (rec (ch a) alpha beta).1) alpha
        (min beta (min v (rec (ch a) alpha beta).1)) (c + (rec (ch a) alpha beta).2)
      omega

/-- `_alphabeta` at depth `dep` performs at most `6 ^ dep` leaf
evaluations. -/
lemma alphabetaCount_le (child : Bool → State → String → State) (mode : String) :
    ∀ (dep : ℕ) (s : State) (alpha beta : ℚ) (maxi : Bool),
      (alphabetaCount child mode dep s alpha beta maxi).2 ≤ 6 ^ dep := by
  intro dep
  induction dep with
  | zero => intro s alpha beta maxi; simp [alphabetaCount]
  | succ dd ih =>
    intro s alpha beta maxi
    simp only [alphabetaCount]
    split
    · exact Nat.one_le_pow _ _ (by norm_num)
    · have hlen : ACTIONS.length = 6 := rfl
      split
      · have hcnt := abCntMaxGo_count (fun s2 a2 b2 => alphabetaCount child mode dd s2 a2 b2 false)
          (child true s) (6 ^ dd) (fun s2 a2 b2 => ih s2 a2 b2 false)
          ACTIONS (-BIG) alpha beta 0
        rw [hlen, Nat.zero_add] at hcnt
        calc (abCntMaxGo _ _ ACTIONS (-BIG) alpha beta 0).2 ≤ 6 * 6 ^ dd := hcnt
          _ = 6 ^ (dd + 1) := by rw [pow_succ, Nat.mul_comm]
      · have hcnt := abCntMinGo_count (fun s2 a2 b2 => alphabetaCount child mode dd s2 a2 b2 true)
          (child false s) (6 ^ dd) (fun s2 a2 b2 => ih s2 a2 b2 true)
          ACTIONS BIG alpha beta 0
        rw [hlen, Nat.zero_add] at hcnt
        calc (abCntMinGo _ _ ACTIONS BIG alpha beta 0).2 ≤ 6 * 6 ^ dd := hcnt
          _ = 6 ^ (dd + 1) := by rw [pow_succ, Nat.mul_comm]

lemma simulate_neutrals_map_id (d : Draws) (s : State) (pa oa : String) (dt : ℚ) :
    (simulate_one_tick d s pa oa dt).neutrals.map Neutral.id
      = s.neutrals.map Neutral.id := by
  have hsim : simulate_one_tick d s pa oa dt
      = { bumpPhase (hazardPhase d dt (opponentAttack oa (playerAttack pa
            (preAttack d s pa oa dt)))) with
          tick := (bumpPhase (hazardPhase d dt (opponentAttack oa (playerAttack pa
            (preAttack d s pa oa dt))))).tick + 1 } := rfl
  rw [hsim]
  show (bumpPhase _).neutrals.map Neutral.id = _
  rw [bumpPhase_neutrals]
  simp only [hazardPhase]
  rw [hazardGo_neutrals_map_id, opponentAttack_neutrals_map_id, playerAttack_neutrals_map_id,
    preAttack_neutrals,
    mapIdxFrom_map_field Neutral.id _ (fun j n => updateNeutral_id d s.tick dt j n),
    map_copy_eq]

/-! The claim theorems. -/

/-- Claim C1: `simulate_one_tick` never mutates its input: the embedded
`State.copy` and `Neutral.copy` reproduce every field of the state they
copy (so the copy taken at line 171 carries the same values), and the
transition computed from the copy is the transition computed from the
original — the returned state is built from the fresh copy, and the input
value is untouched (input and output are distinct values of a pure
function). -/
theorem simulate_one_tick_no_mutation (s : State) :
    State.copy s = s ∧ (∀ n : Neutral, Neutral.copy n = n) ∧
    ∀ (d : Draws) (pa oa : String) (dt : ℚ),
      simulate_one_tick d (State.copy s) pa oa dt = simulate_one_tick d s pa oa dt := by
  refine ⟨state_copy_eq s, fun n => neutral_copy_eq n, fun d pa oa dt => ?_⟩
  rw [state_copy_eq]

/-- Claim C3: `is_terminal` is true iff the player's health is ≤ 0, or the
opponent's health is ≤ 0, or the player's position is ≥ the track length,
or the opponent's position is ≥ the track length, or the tick counter
exceeds 7000; no other condition makes it true. -/
theorem is_terminal_iff (s : State) :
    is_terminal s = true ↔
      (s.p_health ≤ 0 ∨ s.o_health ≤ 0 ∨ TRACK_LENGTH ≤ s.p_pos ∨ TRACK_LENGTH ≤ s.o_pos
        ∨ 7000 < s.tick) := by
  simp only [is_terminal]
  split_ifs with h1 h2 h3 <;> simp_all <;> tauto

/-- Claim C8: `simulate_one_tick` increments the tick counter by exactly 1,
and is deterministic given the state, the two actions, `dt` and the random
draws: two calls with the same inputs and the same draw oracle return
identical states. -/
theorem simulate_one_tick_deterministic (d d2 : Draws) (s : State) (pa oa : String) (dt : ℚ) :
    (simulate_one_tick d s pa oa dt).tick = s.tick + 1 ∧
    (d2 = d → simulate_one_tick d2 s pa oa dt = simulate_one_tick d s pa oa dt) := by
  constructor
  · simp only [simulate_one_tick]
    rw [bumpPhase_tick, hazardPhase_tick, opponentAttack_tick, playerAttack_tick,
      preAttack_tick]
  · intro h; rw [h]

/-- Witness for C8 at the initial state with a concrete action pair. -/
theorem simulate_one_tick_deterministic_witness :
    (simulate_one_tick d0 s0 "ACCEL" "LEFT" TICK).tick = s0.tick + 1 ∧
    simulate_one_tick d0 s0 "ACCEL" "LEFT" TICK = simulate_one_tick d0 s0 "ACCEL" "LEFT" TICK :=
  ⟨(simulate_one_tick_deterministic d0 d0 s0 "ACCEL" "LEFT" TICK).1,
   (simulate_one_tick_deterministic d0 d0 s0 "ACCEL" "LEFT" TICK).2 rfl⟩

/-- Counterexample to claim C9: an action outside the closed six-action set
does not fail loudly — at a concrete state, `simulate_one_tick` with the
unknown action `"TELEPORT"` returns normally and behaves exactly like
`"MAINTAIN"` (silent defaulting). -/
theorem invalid_action_counterexample :
    simulate_one_tick d0 s0 "TELEPORT" "MAINTAIN" TICK
      = simulate_one_tick d0 s0 "MAINTAIN" "MAINTAIN" TICK := by
  simp [simulate_one_tick, preAttack, speedPhase, apply_speed, lanePhase, laneStep,
    playerAttack]

/-- Claim C9 as amended: `simulate_one_tick` does not validate its action
arguments; an action outside the five strings it inspects (hence, in
particular, any action outside the closed six-action set) is silently
treated as `"MAINTAIN"`: no speed change, no lane change, no attack, never
a failure. -/
theorem invalid_action_silently_maintains (d : Draws) (s : State) (pa oa : String) (dt : ℚ) :
    (pa ∉ ["ACCEL", "BRAKE", "LEFT", "RIGHT", "ATTACK"] →
      simulate_one_tick d s pa oa dt = simulate_one_tick d s "MAINTAIN" oa dt) ∧
    (oa ∉ ["ACCEL", "BRAKE", "LEFT", "RIGHT", "ATTACK"] →
      simulate_one_tick d s pa oa dt = simulate_one_tick d s pa "MAINTAIN" dt) := by
  constructor
  · intro hpa
    have h1 : pa ≠ "ACCEL" := fun h => hpa (by rw [h]; simp)
    have h2 : pa ≠ "BRAKE" := fun h => hpa (by rw [h]; simp)
    have h3 : pa ≠ "LEFT" := fun h => hpa (by rw [h]; simp)
    have h4 : pa ≠ "RIGHT" := fun h => hpa (by rw [h]; simp)
    have h5 : pa ≠ "ATTACK" := fun h => hpa (by rw [h]; simp)
    simp [simulate_one_tick, preAttack, speedPhase, apply_speed, lanePhase, laneStep,
      playerAttack, h1, h2, h3, h4, h5]
  · intro hoa
    have h1 : oa ≠ "ACCEL" := fun h => hoa (by rw [h]; simp)
    have h2 : oa ≠ "BRAKE" := fun h => hoa (by rw [h]; simp)
    have h3 : oa ≠ "LEFT" := fun h => hoa (by rw [h]; simp)
    have h4 : oa ≠ "RIGHT" := fun h => hoa (by rw [h]; simp)
    have h5 : oa ≠ "ATTACK" := fun h => hoa (by rw [h]; simp)
    simp [simulate_one_tick, preAttack, speedPhase, apply_speed, lanePhase, laneStep,
      opponentAttack, h1, h2, h3, h4, h5]

/-- Witness for the amended C9 with the out-of-set action `"BOOST"` (the
out-of-band boost signal is not one of the six tick actions). -/
theorem invalid_action_silently_maintains_witness :
    simulate_one_tick d0 s0 "BOOST" "MAINTAIN" TICK
        = simulate_one_tick d0 s0 "MAINTAIN" "MAINTAIN" TICK ∧
    simulate_one_tick d0 s0 "MAINTAIN" "BOOST" TICK
        = simulate_one_tick d0 s0 "MAINTAIN" "MAINTAIN" TICK :=
  ⟨(invalid_action_silently_maintains d0 s0 "BOOST" "MAINTAIN" TICK).1 (by decide),
   (invalid_action_silently_maintains d0 s0 "MAINTAIN" "BOOST" TICK).2 (by decide)⟩

/-- Counterexample to claim C6: at the concrete state `cex6` the adversary
is ahead of the controlled agent in the same lane within attack range by a
positive margin, yet the attack-opportunity feature is 0, not 1 (the code
tests `0 < p_pos - o_pos`, i.e. the controlled agent ahead). -/
theorem attack_op_direction_counterexample :
    (cex6.p_lane = cex6.o_lane ∧ 0 < cex6.o_pos - cex6.p_pos
      ∧ cex6.o_pos - cex6.p_pos ≤ ATTACK_RANGE)
    ∧ attack_op cex6 = 0 ∧ ¬ attack_op cex6 = 1 := by
  refine ⟨⟨rfl, by norm_num [cex6, s0], by norm_num [cex6, s0, ATTACK_RANGE]⟩, ?_, ?_⟩
  · norm_num [attack_op, cex6, s0]
  · norm_num [attack_op, cex6, s0]

/-- Claim C6 as amended: the attack-opportunity feature equals 1 exactly
when the two combatants share a lane and the CONTROLLED agent is ahead of
the adversary within attack range by a positive margin
(`0 < p_pos - o_pos ≤ ATTACK_RANGE`), else 0; it contributes with weight 70
in the aggressive profile and 45 in the balanced profile, and aggressive
weights health lower (60 vs 80) and attack opportunity higher (70 vs 45)
than balanced. -/
theorem evaluate_attack_op_characterization (s : State) :
    (attack_op s = 1 ↔
      (s.p_lane = s.o_lane ∧ 0 < s.p_pos - s.o_pos ∧ s.p_pos - s.o_pos ≤ ATTACK_RANGE)) ∧
    (attack_op s = 1 ∨ attack_op s = 0) ∧
    evaluate_state_fun s "aggressive" =
      55 * (s.p_pos / TRACK_LENGTH) + 18 * (s.p_speed / (MAX_SPEED * BOOST_SPEED_MULT))
        + 35 * ((s.p_pos - s.o_pos) / TRACK_LENGTH) + 60 * s.p_health
        + (-50) * collisionFeature s + 70 * attack_op s ∧
    evaluate_state_fun s "balanced" =
      60 * (s.p_pos / TRACK_LENGTH) + 18 * (s.p_speed / (MAX_SPEED * BOOST_SPEED_MULT))
        + 40 * ((s.p_pos - s.o_pos) / TRACK_LENGTH) + 80 * s.p_health
        + (-65) * collisionFeature s + 45 * attack_op s ∧
    ((60 : ℚ) < 80 ∧ (45 : ℚ) < 70) := by
  refine ⟨?_, ?_, ?_, ?_, by norm_num⟩
  · unfold attack_op
    split_ifs with h
    · simp [h]
    · exact iff_of_false (by norm_num) h
  · unfold attack_op
    split_ifs <;> simp
  · simp [evaluate_state_fun]
  · simp [evaluate_state_fun]

/-- Claim C2: from any state with healths in range (every reachable state
has them in range, both initially and inductively by this theorem), one
tick keeps both healths in `[0, 1]`, the adversary speed in
`[0, MAX_SPEED]`, the controlled-agent speed in
`[0, MAX_SPEED * BOOST_SPEED_MULT]`, and in `[0, MAX_SPEED]` whenever the
returned state's boost counter is 0 — for every draw oracle whose
opponent-hazard slip draws lie in `[0, 1]` (the range of
`random.random()`). -/
theorem simulate_one_tick_bounds (d : Draws) (s : State) (pa oa : String) (dt : ℚ)
    (hp0 : 0 ≤ s.p_health) (hp1 : s.p_health ≤ MAX_HEALTH)
    (ho0 : 0 ≤ s.o_health) (ho1 : s.o_health ≤ MAX_HEALTH)
    (hd : ∀ h, 0 ≤ d.oHazSlip h ∧ d.oHazSlip h ≤ 1) :
    (0 ≤ (simulate_one_tick d s pa oa dt).p_health
      ∧ (simulate_one_tick d s pa oa dt).p_health ≤ MAX_HEALTH) ∧
    (0 ≤ (simulate_one_tick d s pa oa dt).o_health
      ∧ (simulate_one_tick d s pa oa dt).o_health ≤ MAX_HEALTH) ∧
    (0 ≤ (simulate_one_tick d s pa oa dt).o_speed
      ∧ (simulate_one_tick d s pa oa dt).o_speed ≤ MAX_SPEED) ∧
    (0 ≤ (simulate_one_tick d s pa oa dt).p_speed
      ∧ (simulate_one_tick d s pa oa dt).p_speed ≤ MAX_SPEED * BOOST_SPEED_MULT) ∧
    ((simulate_one_tick d s pa oa dt).p_boost_ticks_left = 0 →
      (simulate_one_tick d s pa oa dt).p_speed ≤ MAX_SPEED) := by
  have hposteq : ∀ c : ℚ, CombatantInv c (preAttack d s pa oa dt) →
      CombatantInv c (bumpPhase (hazardPhase d dt (opponentAttack oa
        (playerAttack pa (preAttack d s pa oa dt))))) := fun c hc =>
    bumpPhase_inv c _ (hazardPhase_inv c d dt hd _ (opponentAttack_inv c oa _
      (playerAttack_inv c pa _ hc)))
  have hsim : simulate_one_tick d s pa oa dt
      = { bumpPhase (hazardPhase d dt (opponentAttack oa (playerAttack pa
            (preAttack d s pa oa dt)))) with
          tick := (bumpPhase (hazardPhase d dt (opponentAttack oa (playerAttack pa
            (preAttack d s pa oa dt))))).tick + 1 } := rfl
  have hpre : CombatantInv (MAX_SPEED * BOOST_SPEED_MULT) (preAttack d s pa oa dt) := by
    refine ⟨?_, ?_, ?_, ?_, (preAttack_p_speed_bounds d s pa oa dt).1,
      (preAttack_p_speed_bounds d s pa oa dt).2, ?_, ?_⟩
    · rw [preAttack_p_health]; exact hp0
    · rw [preAttack_p_health]; exact hp1
    · rw [preAttack_o_health]; exact ho0
    · rw [preAttack_o_health]; exact ho1
    · rw [preAttack_o_speed]; exact apply_speed_nonneg _ _ _ _ _
    · rw [preAttack_o_speed]; exact apply_speed_le_max _ _ _ _ _ (by simp)
  obtain ⟨g1, g2, g3, g4, g5, g6, g7, g8⟩ := hposteq _ hpre
  refine ⟨⟨?_, ?_⟩, ⟨?_, ?_⟩, ⟨?_, ?_⟩, ⟨?_, ?_⟩, ?_⟩
  · rw [hsim]; exact g1
  · rw [hsim]; exact g2
  · rw [hsim]; exact g3
  · rw [hsim]; exact g4
  · rw [hsim]; exact g7
  · rw [hsim]; exact g8
  · rw [hsim]; exact g5
  · rw [hsim]; exact g6
  · intro hb0
    have hb0p : (preAttack d s pa oa dt).p_boost_ticks_left = 0 := by
      have heq : (simulate_one_tick d s pa oa dt).p_boost_ticks_left
          = (preAttack d s pa oa dt).p_boost_ticks_left := by
        rw [hsim]
        show (bumpPhase _).p_boost_ticks_left = _
        rw [bumpPhase_boost, hazardPhase_boost, opponentAttack_boost_ticks,
          playerAttack_boost_ticks]
      rw [← heq]
      exact hb0
    have hpre14 : CombatantInv MAX_SPEED (preAttack d s pa oa dt) := by
      obtain ⟨k1, k2, k3, k4, k5, k6, k7, k8⟩ := hpre
      exact ⟨k1, k2, k3, k4, k5, preAttack_p_speed_noboost d s pa oa dt hb0p, k7, k8⟩
    obtain ⟨-, -, -, -, -, q6, -, -⟩ := hposteq MAX_SPEED hpre14
    rw [hsim]
    exact q6

/-- Witness for C2 at a state carrying one alive neutral, one dead
neutral and one hazard, with the zero draw oracle. -/
theorem simulate_one_tick_bounds_witness :
    (0 ≤ (simulate_one_tick d0 s10 "ACCEL" "BRAKE" TICK).p_health
      ∧ (simulate_one_tick d0 s10 "ACCEL" "BRAKE" TICK).p_health ≤ MAX_HEALTH) ∧
    (0 ≤ (simulate_one_tick d0 s10 "ACCEL" "BRAKE" TICK).o_health
      ∧ (simulate_one_tick d0 s10 "ACCEL" "BRAKE" TICK).o_health ≤ MAX_HEALTH) ∧
    (0 ≤ (simulate_one_tick d0 s10 "ACCEL" "BRAKE" TICK).o_speed
      ∧ (simulate_one_tick d0 s10 "ACCEL" "BRAKE" TICK).o_speed ≤ MAX_SPEED) ∧
    (0 ≤ (simulate_one_tick d0 s10 "ACCEL" "BRAKE" TICK).p_speed
      ∧ (simulate_one_tick d0 s10 "ACCEL" "BRAKE" TICK).p_speed
          ≤ MAX_SPEED * BOOST_SPEED_MULT) ∧
    ((simulate_one_tick d0 s10 "ACCEL" "BRAKE" TICK).p_boost_ticks_left = 0 →
      (simulate_one_tick d0 s10 "ACCEL" "BRAKE" TICK).p_speed ≤ MAX_SPEED) :=
  simulate_one_tick_bounds d0 s10 "ACCEL" "BRAKE" TICK
    (by norm_num [s10, s0]) (by norm_num [s10, s0, MAX_HEALTH])
    (by norm_num [s10, s0]) (by norm_num [s10, s0, MAX_HEALTH])
    (fun h => ⟨le_refl 0, by norm_num [d0]⟩)

/-- Claim C7: for every depth, every style profile and every fixed
sequence of transition results at the tree nodes (the `child` function),
the alpha-beta recursion started on the full window `(-1e9, 1e9)` returns
the same value as unpruned full minimax over the same depth-`d` tree with
the same leaf evaluation, provided every leaf evaluation lies strictly
inside `(-1e9, 1e9)`; and it evaluates at most `6 ^ d` leaves (the
instrumented recursion, which computes the same value, counts its leaf
evaluations).  Pruning changes only the node count, never the value. -/
theorem alphabeta_eq_minimax (child : Bool → State → String → State) (mode : String)
    (dep : ℕ) (s : State) (maxi : Bool)
    (hb : ∀ t ∈ searchLeaves child dep s maxi,
      -BIG < evaluate_state_fun t mode ∧ evaluate_state_fun t mode < BIG) :
    alphabeta child mode dep s (-BIG) BIG maxi = minimax child mode dep s maxi ∧
    (alphabetaCount child mode dep s (-BIG) BIG maxi).1
        = alphabeta child mode dep s (-BIG) BIG maxi ∧
    (alphabetaCount child mode dep s (-BIG) BIG maxi).2 ≤ 6 ^ dep := by
  have hBIG : (-BIG : ℚ) < BIG := by norm_num [BIG]
  have hmm := minimax_bounds child mode dep s maxi hb
  have heq := ab_mm_clamped child mode dep s (-BIG) BIG maxi hBIG
  rw [min_eq_left (le_of_lt hmm.2), max_eq_right (le_of_lt hmm.1)] at heq
  refine ⟨?_, alphabetaCount_fst child mode dep s (-BIG) BIG maxi,
    alphabetaCount_le child mode dep s (-BIG) BIG maxi⟩
  rcases le_or_lt (min (alphabeta child mode dep s (-BIG) BIG maxi) BIG) (-BIG) with hle | hlt
  · rw [max_eq_left hle] at heq
    exact absurd heq (ne_of_lt hmm.1)
  · rw [max_eq_right (le_of_lt hlt)] at heq
    rcases le_or_lt BIG (alphabeta child mode dep s (-BIG) BIG maxi) with hba | hab2
    · rw [min_eq_right hba] at heq
      exact absurd heq (ne_of_gt hmm.2)
    · rwa [min_eq_left (le_of_lt hab2)] at heq

/-- Witness for C7 at depth 1 from the initial state with the constant
(self-loop) child function. -/
theorem alphabeta_eq_minimax_witness :
    alphabeta child0 "balanced" 1 s0 (-BIG) BIG true = minimax child0 "balanced" 1 s0 true ∧
    (alphabetaCount child0 "balanced" 1 s0 (-BIG) BIG true).1
        = alphabeta child0 "balanced" 1 s0 (-BIG) BIG true ∧
    (alphabetaCount child0 "balanced" 1 s0 (-BIG) BIG true).2 ≤ 6 ^ 1 := by
  apply alphabeta_eq_minimax child0 "balanced" 1 s0 true
  intro t ht
  have hterm : is_terminal s0 = false := by
    norm_num [is_terminal, s0, TRACK_LENGTH]
  have ht2 : t = s0 := by
    simp [searchLeaves, hterm, child0, ACTIONS] at ht
    exact ht
  subst ht2
  have hmode : (("balanced" : String) = "aggressive") = False := by simp
  constructor <;>
    norm_num [evaluate_state_fun, collisionFeature, attack_op, s0, BIG, TRACK_LENGTH,
      MAX_SPEED, BOOST_SPEED_MULT, ATTACK_RANGE, hmode]

/-- Claim C4: an attack issued while the attacker's cooldown has not yet
elapsed (current tick minus last-attack tick < cooldown ticks) is a
complete no-op: the attack phase leaves the state unchanged (no health
change, no hit flag, last-attack tick not updated), and the full tick with
`Attack` returns exactly the state the same tick with `Maintain` returns,
for the same random draws; stated for both combatants. -/
theorem attack_on_cooldown_noop (d : Draws) (s : State) (pa oa : String) (dt : ℚ) :
    (s.tick - s.p_last_attack_tick < ATTACK_COOLDOWN_TICKS →
      simulate_one_tick d s "ATTACK" oa dt = simulate_one_tick d s "MAINTAIN" oa dt) ∧
    (s.tick - s.o_last_attack_tick < ATTACK_COOLDOWN_TICKS →
      simulate_one_tick d s pa "ATTACK" dt = simulate_one_tick d s pa "MAINTAIN" dt) ∧
    (s.tick - s.p_last_attack_tick < ATTACK_COOLDOWN_TICKS → playerAttack "ATTACK" s = s) ∧
    (s.tick - s.o_last_attack_tick < ATTACK_COOLDOWN_TICKS → opponentAttack "ATTACK" s = s) := by
  refine ⟨fun h => ?_, fun h => ?_, fun h => ?_, fun h => ?_⟩
  · have hc : ¬("ATTACK" = "ATTACK" ∧ ATTACK_COOLDOWN_TICKS ≤
        (preAttack d s "ATTACK" oa dt).tick - (preAttack d s "ATTACK" oa dt).p_last_attack_tick) := by
      rw [preAttack_tick, preAttack_p_last]
      rintro ⟨-, hle⟩
      exact absurd hle (not_le.mpr h)
    simp only [simulate_one_tick]
    rw [playerAttack_skip _ _ hc, preAttack_pa_attack_maintain, playerAttack_maintain]
  · have hc : ¬("ATTACK" = "ATTACK" ∧ ATTACK_COOLDOWN_TICKS ≤
        (playerAttack pa (preAttack d s pa "ATTACK" dt)).tick
          - (playerAttack pa (preAttack d s pa "ATTACK" dt)).o_last_attack_tick) := by
      rw [playerAttack_tick, playerAttack_o_last, preAttack_tick, preAttack_o_last]
      rintro ⟨-, hle⟩
      exact absurd hle (not_le.mpr h)
    simp only [simulate_one_tick]
    rw [opponentAttack_skip _ _ hc, preAttack_oa_attack_maintain, opponentAttack_maintain]
  · exact playerAttack_skip _ _ (by rintro ⟨-, hle⟩; exact absurd hle (not_le.mpr h))
  · exact opponentAttack_skip _ _ (by rintro ⟨-, hle⟩; exact absurd hle (not_le.mpr h))

/-- Witness for C4 at a state whose last-attack ticks equal the current
tick (cooldowns not elapsed). -/
theorem attack_on_cooldown_noop_witness :
    simulate_one_tick d0 s4 "ATTACK" "MAINTAIN" TICK
        = simulate_one_tick d0 s4 "MAINTAIN" "MAINTAIN" TICK ∧
    simulate_one_tick d0 s4 "MAINTAIN" "ATTACK" TICK
        = simulate_one_tick d0 s4 "MAINTAIN" "MAINTAIN" TICK ∧
    playerAttack "ATTACK" s4 = s4 ∧ opponentAttack "ATTACK" s4 = s4 :=
  ⟨(attack_on_cooldown_noop d0 s4 "MAINTAIN" "MAINTAIN" TICK).1 (by decide),
   (attack_on_cooldown_noop d0 s4 "MAINTAIN" "MAINTAIN" TICK).2.1 (by decide),
   (attack_on_cooldown_noop d0 s4 "MAINTAIN" "MAINTAIN" TICK).2.2.1 (by decide),
   (attack_on_cooldown_noop d0 s4 "MAINTAIN" "MAINTAIN" TICK).2.2.2 (by decide)⟩

/-- Claim C5: an off-cooldown attack that hits nothing — the other
combatant is not an eligible target and no alive neutral is an eligible
target — still consumes the cooldown: the attack resolution changes
exactly the attacker's last-attack tick (set to the current tick) and
nothing else, in particular no health; and through the full tick the
returned state carries last-attack tick = the tick at which the attack was
issued. -/
theorem attack_whiff_consumes_cooldown (d : Draws) (s m : State) (oa : String) (dt : ℚ) :
    (ATTACK_COOLDOWN_TICKS ≤ m.tick - m.p_last_attack_tick →
     ¬(m.p_lane = m.o_lane ∧ |m.p_pos - m.o_pos| ≤ ATTACK_RANGE) →
     (∀ n ∈ m.neutrals,
        ¬(0 < n.health ∧ n.lane = m.p_lane ∧ |n.pos - m.p_pos| ≤ ATTACK_RANGE)) →
      playerAttack "ATTACK" m = { m with p_last_attack_tick := m.tick }) ∧
    (ATTACK_COOLDOWN_TICKS ≤ m.tick - m.o_last_attack_tick →
     ¬(m.o_lane = m.p_lane ∧ |m.o_pos - m.p_pos| ≤ ATTACK_RANGE) →
     (∀ n ∈ m.neutrals,
        ¬(0 < n.health ∧ n.lane = m.o_lane ∧ |n.pos - m.o_pos| ≤ ATTACK_RANGE)) →
      opponentAttack "ATTACK" m = { m with o_last_attack_tick := m.tick }) ∧
    (ATTACK_COOLDOWN_TICKS ≤ s.tick - s.p_last_attack_tick →
      (simulate_one_tick d s "ATTACK" oa dt).p_last_attack_tick = s.tick) := by
  refine ⟨playerAttack_miss m, opponentAttack_miss m, fun h => ?_⟩
  simp only [simulate_one_tick]
  rw [bumpPhase_p_last, hazardPhase_p_last, opponentAttack_p_last,
    playerAttack_fires_p_last _ (by rw [preAttack_tick, preAttack_p_last]; exact h),
    preAttack_tick]

/-- Claim C10: one tick preserves the identities, order and length of the
neutrals sequence; the neutral-update step moves every neutral (dead or
alive: its speed is re-clamped with the jitter and its position advances
by the new speed times `dt`, with no health guard); a neutral with
health ≤ 0 is never an attack target; the bump loop is the same fold run
over only the alive neutrals; and a dead neutral still undergoes the
hazard proximity roll (its speed and health are updated with no health
guard). -/
theorem neutrals_preserved_dead_still_drift (d : Draws) (s : State) (pa oa : String)
    (dt : ℚ) (t : ℤ) (i : ℕ) (n : Neutral) (h : ℕ) (hp : ℚ) (hl : ℤ)
    (lane : ℤ) (pos : ℚ) (ns : List Neutral) (j : ℕ) (m : Neutral) :
    ((simulate_one_tick d s pa oa dt).neutrals.map Neutral.id = s.neutrals.map Neutral.id
      ∧ (simulate_one_tick d s pa oa dt).neutrals.length = s.neutrals.length) ∧
    ((updateNeutral d t dt i n).speed
        = clamp (n.speed + d.jitter i * dt) (1/2) NEUTRAL_MAX_SPEED
      ∧ (updateNeutral d t dt i n).pos = n.pos + (updateNeutral d t dt i n).speed * dt
      ∧ (updateNeutral d t dt i n).health = n.health) ∧
    (ns[j]? = some m → m.health ≤ 0 → (attackNeutrals lane pos ns).1[j]? = some m) ∧
    (bumpPhase s
      = List.foldl bumpOne s (s.neutrals.filter (fun n2 => decide (0 < n2.health)))) ∧
    (n.health ≤ 0 → (hl = n.lane ∧ |n.pos - hp| < n.speed * dt + 3/5) →
      d.nHazRoll h i < 3/5 →
      (hazardNeutral d h dt hp hl i n).speed
          = n.speed * (HAZARD_SLIP_FACTOR + (1/10) * d.nHazSlip h i)
        ∧ (hazardNeutral d h dt hp hl i n).health
          = clamp (n.health - HAZARD_DAMAGE * (1/2 + d.nHazDmg h i)) 0 MAX_HEALTH) := by
  refine ⟨⟨simulate_neutrals_map_id d s pa oa dt, ?_⟩, ⟨?_, ?_, ?_⟩,
    attackNeutrals_dead_untouched lane pos ns j m, ?_, ?_⟩
  · have hmap := simulate_neutrals_map_id d s pa oa dt
    have := congrArg List.length hmap
    simpa using this
  · simp only [updateNeutral]
    split <;> rfl
  · simp only [updateNeutral]
    split <;> rfl
  · simp only [updateNeutral]
    split <;> rfl
  · simp only [bumpPhase]
    exact foldl_bumpOne_filter _ _
  · intro _ hprox hroll
    simp only [hazardNeutral]
    rw [if_pos hprox, if_pos hroll]
    exact ⟨rfl, rfl⟩

/-- Witness for C10 at a state with one alive and one dead neutral, the
dead neutral being hit by a hazard proximity roll. -/
theorem neutrals_preserved_dead_still_drift_witness :
    ((simulate_one_tick d0 s10 "MAINTAIN" "MAINTAIN" TICK).neutrals.map Neutral.id
        = s10.neutrals.map Neutral.id
      ∧ (simulate_one_tick d0 s10 "MAINTAIN" "MAINTAIN" TICK).neutrals.length
        = s10.neutrals.length) ∧
    ((updateNeutral d0 0 TICK 0 nDead).speed
        = clamp (nDead.speed + d0.jitter 0 * TICK) (1/2) NEUTRAL_MAX_SPEED
      ∧ (updateNeutral d0 0 TICK 0 nDead).pos
        = nDead.pos + (updateNeutral d0 0 TICK 0 nDead).speed * TICK
      ∧ (updateNeutral d0 0 TICK 0 nDead).health = nDead.health) ∧
    ((attackNeutrals 1 0 [nDead]).1[0]? = some nDead) ∧
    (bumpPhase s10
      = List.foldl bumpOne s10 (s10.neutrals.filter (fun n2 => decide (0 < n2.health)))) ∧
    ((hazardNeutral d0 0 TICK 40 2 0 nDead).speed
        = nDead.speed * (HAZARD_SLIP_FACTOR + (1/10) * d0.nHazSlip 0 0)
      ∧ (hazardNeutral d0 0 TICK 40 2 0 nDead).health
        = clamp (nDead.health - HAZARD_DAMAGE * (1/2 + d0.nHazDmg 0 0)) 0 MAX_HEALTH) := by
  have W := neutrals_preserved_dead_still_drift d0 s10 "MAINTAIN" "MAINTAIN" TICK 0 0 nDead
    0 40 2 1 0 [nDead] 0 nDead
  exact ⟨W.1, W.2.1, W.2.2.1 rfl (by norm_num [nDead]), W.2.2.2.1,
    W.2.2.2.2 (by norm_num [nDead]) ⟨rfl, by norm_num [nDead, TICK]⟩ (by norm_num [d0])⟩

/-- Witness for C5 at a state whose combatants are in different lanes with
no neutrals, cooldowns long elapsed. -/
theorem attack_whiff_consumes_cooldown_witness :
    playerAttack "ATTACK" s5 = { s5 with p_last_attack_tick := s5.tick } ∧
    opponentAttack "ATTACK" s5 = { s5 with o_last_attack_tick := s5.tick } ∧
    (simulate_one_tick d0 s5 "ATTACK" "MAINTAIN" TICK).p_last_attack_tick = s5.tick :=
  ⟨(attack_whiff_consumes_cooldown d0 s5 s5 "MAINTAIN" TICK).1 (by decide)
      (by rintro ⟨hl, -⟩; exact absurd hl (by decide))
      (by intro n hn; simp [s5, s0] at hn),
   (attack_whiff_consumes_cooldown d0 s5 s5 "MAINTAIN" TICK).2.1 (by decide)
      (by rintro ⟨hl, -⟩; exact absurd hl (by decide))
      (by intro n hn; simp [s5, s0] at hn),
   (attack_whiff_consumes_cooldown d0 s5 s5 "MAINTAIN" TICK).2.2 (by decide)⟩

end RoadRash
